import Mathlib

/-!
# jfbview: navigation, zoom and input loop of `main.cpp`

A shallow embedding of `src/main.cpp`: the command classes and the registry,
the repeat-count input loop, the slideshow dispatch and the interval lookup,
the GPIO button reader, the command line options, `split_intervals` and
`line_to`.

Conventions of the embedding.

* A C++ `int` is an `Int`.  Signed overflow is undefined in C++, so the
  arithmetic of the commands is exact on every execution the language defines.
  The one place where unbounded input reaches `int` arithmetic, the repeat
  accumulation of the input loop, is wrapped to 32 bits (`wrap32`).
* A C++ `float` is a rational.  Every function that computes with floats takes
  the rounding `rnd : ℚ → ℚ` applied after each float operation: `id` is exact
  arithmetic, `f32` is IEEE binary32 with round-to-nearest-even.
* Integer division is `Int.tdiv` (C++ truncates toward zero).
* A call that can end the process or throw returns an `Outcome`; a read outside
  a vector is `none`.
* Functions of the C and C++ libraries (`sscanf`, `std::stoi`,
  `std::string::find`, `isdigit`, `isspace`) are modelled from their
  documentation.
* `command.hpp` and `viewer.hpp` are not among the sources.  The constants
  they declare are the fields of `Decls`; `Viewer::State`, `RepeatOrDefault`,
  `Registry` and the accessors of `Viewer` are modelled from the specification.
-/

namespace Jfbview

/-! ## Declarations taken from the headers -/

/-- The value of `INT_MAX` in `<climits>` for a 32-bit `int`. -/
def INT_MAX : Int := 2147483647

/-- The value of `INT_MIN` in `<climits>` for a 32-bit `int`. -/
def INT_MIN : Int := -2147483648

/-- Two's complement wrap of an integer into the range of a 32-bit `int`. -/
def wrap32 (x : Int) : Int := (x + 2147483648) % 4294967296 - 2147483648

/-- Conversion of an `int` to `size_t` (64-bit unsigned), as done by the usual
arithmetic conversions when an `int` meets a `size()` and by `operator[]`: a
negative value has `2^64` added. -/
def to_size_t (n : Int) : Nat :=
  if 0 ≤ n then n.toNat else (18446744073709551616 + n).toNat

/-- Constants that `main.cpp` takes from `command.hpp` and `viewer.hpp`:
`Command::NO_REPEAT`, `Viewer::MIN_ZOOM`, `Viewer::MAX_ZOOM`,
`Viewer::ZOOM_TO_FIT`, `Viewer::ZOOM_TO_WIDTH` and
`Viewer::DEFAULT_RENDER_CACHE_SIZE`.  Their values are not in the sources, so
every definition that needs one takes a `Decls`. -/
structure Decls where
  NO_REPEAT : Int
  MIN_ZOOM : ℚ
  MAX_ZOOM : ℚ
  ZOOM_TO_FIT : ℚ
  ZOOM_TO_WIDTH : ℚ
  DEFAULT_RENDER_CACHE_SIZE : Int
deriving DecidableEq, Repr

/-- The enumeration `Viewer::ColorMode`. -/
inductive ColorMode where
  | NORMAL
  | INVERTED
  | SEPIA
deriving DecidableEq, Repr

/-- Modelled from the spec: `Viewer::State` of `viewer.hpp`, which is not among
the sources.  The fields are those of the specification's NavigationState, all
of which `main.cpp` reads or writes through `State`. -/
structure ViewerState where
  Page : Int
  NumPages : Int
  Zoom : ℚ
  ActualZoom : ℚ
  Rotation : Int
  ColorMode : ColorMode
  XOffset : Int
  YOffset : Int
  PageWidth : Int
  PageHeight : Int
  ScreenWidth : Int
  ScreenHeight : Int
  Interval : Int
  Intervals : List Int
  ShowProgress : Bool
  UseButton : Bool
deriving DecidableEq, Repr

/-- The values of `State::DocumentType`. -/
inductive DocumentType where
  | AUTO_DETECT
  | PDF
  | IMAGE
deriving DecidableEq, Repr

/-- The main program state `struct State : public Viewer::State`.

`ViewerInst` is the state held by the `Viewer` object (see `Viewer.GetState`).
`_saved_states` is the static member `StateCommand::_saved_states`, the map
from register number to saved state, kept here so that `Execute` is a function
of the state; the entry of a register is the first pair with its number.  The
document, outline, search and framebuffer instances carry no data that the
commands compute with; what their calls return is an `External`.  A C string
is the list of its characters. -/
structure State extends ViewerState where
  PrintFBDebugInfoAndExit : Bool
  Exit : Bool
  Render : Bool
  DocumentType : DocumentType
  RenderCacheSize : Int
  FilePath : List Char
  FilePassword : Option (List Char)
  FramebufferDevice : List Char
  ViewerInst : ViewerState
  _saved_states : List (Int × ViewerState)
deriving DecidableEq, Repr

/-- What the calls into the external collaborators return during one
`Execute`: `OutlineView::Run` followed by `Document::Lookup`
(`none` when `Run` returned `nullptr`), `SearchView::Run`, and `LoadFile`. -/
structure External where
  outline_dest_page : Option Int
  search_dest_page : Int
  load_file : Bool
deriving DecidableEq, Repr

/-- Modelled from the spec: `Command::RepeatOrDefault` of `command.hpp`, "each
Command interprets an absent repeat using its own per-command default". -/
def RepeatOrDefault (K : Decls) (repeat_ default_repeat : Int) : Int :=
  if repeat_ = K.NO_REPEAT then default_repeat else repeat_

/-- Modelled from the spec: `Viewer::GetState`, the Viewer "reports back" the
state it holds; assigning it through a `State*` replaces the `Viewer::State`
part of the program state and leaves the other members alone. -/
def Viewer.GetState (state : State) : State :=
  { state with toViewerState := state.ViewerInst }

/-- Modelled from the spec: `Viewer::SetState`, the Viewer takes over the state
it is given. -/
def Viewer.SetState (v : ViewerState) (state : State) : State :=
  { state with ViewerInst := v }

/-! ## Commands -/

/-- The method `ExitCommand::Execute`. -/
def ExitCommand.Execute (state : State) : State :=
  { state with Exit := true }

/-- The method `MoveCommand::GetMoveSize`. -/
def MoveCommand.GetMoveSize (state : State) (horizontal : Bool) : Int :=
  if horizontal then Int.tdiv state.ScreenWidth 10
  else Int.tdiv state.ScreenHeight 10

/-- The method `MoveDownCommand::Execute`. -/
def MoveDownCommand.Execute (K : Decls) (repeat_ : Int) (state : State) : State :=
  let state := { state with
    YOffset := state.YOffset + RepeatOrDefault K repeat_ 1 * MoveCommand.GetMoveSize state false }
  if state.YOffset + state.ScreenHeight ≥
      state.PageHeight - 1 + MoveCommand.GetMoveSize state false then
    let state := { state with Page := state.Page + 1 }
    if state.Page < state.NumPages then { state with YOffset := 0 } else state
  else state

/-- The method `MoveUpCommand::Execute`. -/
def MoveUpCommand.Execute (K : Decls) (repeat_ : Int) (state : State) : State :=
  let state := { state with
    YOffset := state.YOffset - RepeatOrDefault K repeat_ 1 * MoveCommand.GetMoveSize state false }
  if state.YOffset ≤ -MoveCommand.GetMoveSize state false then
    let state := { state with Page := state.Page - 1 }
    if state.Page ≥ 0 then { state with YOffset := INT_MAX } else state
  else state

/-- The method `MoveLeftCommand::Execute`. -/
def MoveLeftCommand.Execute (K : Decls) (repeat_ : Int) (state : State) : State :=
  { state with
    XOffset := state.XOffset - RepeatOrDefault K repeat_ 1 * MoveCommand.GetMoveSize state true }

/-- The method `MoveRightCommand::Execute`. -/
def MoveRightCommand.Execute (K : Decls) (repeat_ : Int) (state : State) : State :=
  { state with
    XOffset := state.XOffset + RepeatOrDefault K repeat_ 1 * MoveCommand.GetMoveSize state true }

/-- The method `ScreenDownCommand::Execute`. -/
def ScreenDownCommand.Execute (K : Decls) (repeat_ : Int) (state : State) : State :=
  let state := { state with
    YOffset := state.YOffset + RepeatOrDefault K repeat_ 1 * state.ScreenHeight }
  if state.YOffset + state.ScreenHeight ≥ state.PageHeight - 1 + state.ScreenHeight then
    let state := { state with Page := state.Page + 1 }
    if state.Page < state.NumPages then { state with YOffset := 0 } else state
  else state

/-- The method `ScreenUpCommand::Execute`. -/
def ScreenUpCommand.Execute (K : Decls) (repeat_ : Int) (state : State) : State :=
  let state := { state with
    YOffset := state.YOffset - RepeatOrDefault K repeat_ 1 * state.ScreenHeight }
  if state.YOffset ≤ -state.ScreenHeight then
    let state := { state with Page := state.Page - 1 }
    if state.Page ≥ 0 then { state with YOffset := INT_MAX } else state
  else state

/-- The method `PageDownCommand::Execute`. -/
def PageDownCommand.Execute (K : Decls) (repeat_ : Int) (state : State) : State :=
  { state with Page := state.Page + RepeatOrDefault K repeat_ 1 }

/-- The method `PageUpCommand::Execute`. -/
def PageUpCommand.Execute (K : Decls) (repeat_ : Int) (state : State) : State :=
  { state with Page := state.Page - RepeatOrDefault K repeat_ 1 }

/-- The method `GoToPageCommand::Execute`, for the command built with `_default_page`. -/
def GoToPageCommand.Execute (K : Decls) (_default_page : Int) (repeat_ : Int)
    (state : State) : State :=
  let page := max 1 (min state.NumPages (RepeatOrDefault K repeat_ _default_page)) - 1
  if page ≠ state.Page then
    { state with Page := page, XOffset := 0, YOffset := 0 }
  else state

/-! ## Float arithmetic -/

/-- Round a rational to the nearest integer, ties to the even one. -/
def roundHalfEven (x : ℚ) : Int :=
  let f := ⌊x⌋
  if x - f < 1 / 2 then f
  else if 1 / 2 < x - f then f + 1
  else if f % 2 = 0 then f else f + 1

/-- The spacing of binary32 values around a number of magnitude `a`: the least
power of two `u`, from `2^(-149)` up, with `a < 2^24 * u`.  `fuel` bounds the
search; 253 steps reach `2^104`, the spacing of the largest binade. -/
def f32Quantum : Nat → ℚ → ℚ → ℚ
  | 0, _, u => u
  | fuel + 1, a, u => if a < 16777216 * u then u else f32Quantum fuel a (2 * u)

/-- Rounding of a rational to IEEE 754 binary32, round-to-nearest-even, on the
finite range (no overflow to infinity). -/
def f32 (x : ℚ) : ℚ :=
  let u := f32Quantum 253 |x| (1 / 2 ^ 149)
  roundHalfEven (x / u) * u

/-- The conversion `static_cast<int>(x)` of a float: truncation toward zero. -/
def truncToInt (x : ℚ) : Int := if 0 ≤ x then ⌊x⌋ else ⌈x⌉

/-! ## Zoom, rotation and the remaining commands -/

/-- The constant `ZoomCommand::ZOOM_COEFFICIENT = 1.2f`. -/
def ZoomCommand.ZOOM_COEFFICIENT (rnd : ℚ → ℚ) : ℚ := rnd (6 / 5)

/-- The method `ZoomCommand::SetZoom`: sets zoom, preserving the screen center.
Division by a zero `PageWidth`, `PageHeight` or `ActualZoom` is outside the
model (the float result is infinite or NaN). -/
def ZoomCommand.SetZoom (K : Decls) (rnd : ℚ → ℚ) (zoom : ℚ) (state : State) : State :=
  let center_ratio_x : ℚ :=
    rnd (rnd ((state.XOffset + Int.tdiv state.ScreenWidth 2 : Int) : ℚ) /
      rnd ((state.PageWidth : Int) : ℚ))
  let center_ratio_y : ℚ :=
    rnd (rnd ((state.YOffset + Int.tdiv state.ScreenHeight 2 : Int) : ℚ) /
      rnd ((state.PageHeight : Int) : ℚ))
  let zoom := max K.MIN_ZOOM (min K.MAX_ZOOM zoom)
  let q : ℚ := rnd (zoom / state.ActualZoom)
  let new_page_width : ℚ := rnd (rnd ((state.PageWidth : Int) : ℚ) * q)
  let new_page_height : ℚ := rnd (rnd ((state.PageHeight : Int) : ℚ) * q)
  let new_center_x : ℚ := rnd (new_page_width * center_ratio_x)
  let new_center_y : ℚ := rnd (new_page_height * center_ratio_y)
  { state with
    XOffset := truncToInt new_center_x - Int.tdiv state.ScreenWidth 2,
    YOffset := truncToInt new_center_y - Int.tdiv state.ScreenHeight 2,
    Zoom := zoom }

/-- The method `ZoomInCommand::Execute`. -/
def ZoomInCommand.Execute (K : Decls) (rnd : ℚ → ℚ) (repeat_ : Int) (state : State) : State :=
  ZoomCommand.SetZoom K rnd
    (rnd (rnd (state.ActualZoom * rnd ((RepeatOrDefault K repeat_ 1 : Int) : ℚ)) *
      ZoomCommand.ZOOM_COEFFICIENT rnd))
    state

/-- The method `ZoomOutCommand::Execute`. -/
def ZoomOutCommand.Execute (K : Decls) (rnd : ℚ → ℚ) (repeat_ : Int) (state : State) : State :=
  ZoomCommand.SetZoom K rnd
    (rnd (rnd (state.ActualZoom * rnd ((RepeatOrDefault K repeat_ 1 : Int) : ℚ)) /
      ZoomCommand.ZOOM_COEFFICIENT rnd))
    state

/-- The method `SetZoomCommand::Execute`. -/
def SetZoomCommand.Execute (K : Decls) (rnd : ℚ → ℚ) (repeat_ : Int) (state : State) : State :=
  ZoomCommand.SetZoom K rnd (rnd (rnd ((RepeatOrDefault K repeat_ 100 : Int) : ℚ) / 100)) state

/-- The method `SetRotationCommand::Execute`. -/
def SetRotationCommand.Execute (K : Decls) (repeat_ : Int) (state : State) : State :=
  { state with Rotation := RepeatOrDefault K repeat_ 0 }

/-- The method `RotateCommand::Execute`, for the command built with `_increment`. -/
def RotateCommand.Execute (K : Decls) (_increment : Int) (repeat_ : Int) (state : State) :
    State :=
  { state with Rotation := state.Rotation + RepeatOrDefault K repeat_ 1 * _increment }

/-- The method `ZoomToFitCommand::Execute`. -/
def ZoomToFitCommand.Execute (K : Decls) (state : State) : State :=
  { state with Zoom := K.ZOOM_TO_FIT }

/-- The method `ZoomToWidthCommand::Execute`. -/
def ZoomToWidthCommand.Execute (K : Decls) (rnd : ℚ → ℚ) (state : State) : State :=
  let orig_page_width : ℚ := rnd (rnd ((state.PageWidth : Int) : ℚ) / state.ActualZoom)
  let actual_zoom : ℚ := rnd (rnd ((state.ScreenWidth : Int) : ℚ) / orig_page_width)
  let state := ZoomCommand.SetZoom K rnd actual_zoom state
  { state with Zoom := K.ZOOM_TO_WIDTH }

/-- The method `ShowOutlineViewCommand::Execute`. -/
def ShowOutlineViewCommand.Execute (K : Decls) (ext : External) (state : State) : State :=
  match ext.outline_dest_page with
  | none => state
  | some dest_page =>
    if dest_page ≥ 0 then GoToPageCommand.Execute K 0 (dest_page + 1) state else state

/-- The method `ShowSearchViewCommand::Execute`. -/
def ShowSearchViewCommand.Execute (K : Decls) (ext : External) (state : State) : State :=
  let dest_page := ext.search_dest_page
  if dest_page ≥ 0 then GoToPageCommand.Execute K 0 (dest_page + 1) state else state

/-- The assignment `_saved_states[n] = v` on the register map. -/
def StateCommand.store (n : Int) (v : ViewerState) (m : List (Int × ViewerState)) :
    List (Int × ViewerState) :=
  (n, v) :: m.filter (fun p => p.1 ≠ n)

/-- The method `SaveStateCommand::Execute`. -/
def SaveStateCommand.Execute (K : Decls) (repeat_ : Int) (state : State) : State :=
  { state with
    _saved_states :=
      StateCommand.store (RepeatOrDefault K repeat_ 0) state.ViewerInst state._saved_states,
    Render := false }

/-- The method `RestoreStateCommand::Execute`. -/
def RestoreStateCommand.Execute (K : Decls) (repeat_ : Int) (state : State) : State :=
  let n := RepeatOrDefault K repeat_ 0
  match state._saved_states.lookup n with
  | some saved => Viewer.GetState (Viewer.SetState saved state)
  | none => state

/-- The method `ReloadCommand::Execute`; the new `Viewer` is constructed from
`*state`. -/
def ReloadCommand.Execute (ext : External) (state : State) : State :=
  if ext.load_file then { state with ViewerInst := state.toViewerState }
  else { state with Exit := true }

/-- The method `ToggleInvertedColorModeCommand::Execute`. -/
def ToggleInvertedColorModeCommand.Execute (state : State) : State :=
  { state with
    ColorMode := if state.ColorMode = ColorMode.INVERTED then ColorMode.NORMAL
      else ColorMode.INVERTED }

/-- The method `ToggleSepiaColorModeCommand::Execute`. -/
def ToggleSepiaColorModeCommand.Execute (state : State) : State :=
  { state with
    ColorMode := if state.ColorMode = ColorMode.SEPIA then ColorMode.NORMAL
      else ColorMode.SEPIA }

/-! ## Command objects and the registry -/

/-- The command classes of `main.cpp` as one closed type: a value stands for an
object of the class, with its constructor argument where the class has one. -/
inductive Command where
  | ExitCommand
  | MoveDownCommand
  | MoveUpCommand
  | MoveLeftCommand
  | MoveRightCommand
  | ScreenDownCommand
  | ScreenUpCommand
  | PageDownCommand
  | PageUpCommand
  | ZoomInCommand
  | ZoomOutCommand
  | SetZoomCommand
  | SetRotationCommand
  | RotateCommand (increment : Int)
  | ZoomToFitCommand
  | ZoomToWidthCommand
  | GoToPageCommand (default_page : Int)
  | ShowOutlineViewCommand
  | ShowSearchViewCommand
  | SaveStateCommand
  | RestoreStateCommand
  | ReloadCommand
  | ToggleInvertedColorModeCommand
  | ToggleSepiaColorModeCommand
deriving DecidableEq, Repr

/-- The virtual call `Command::Execute(repeat, state)`. -/
def Command.Execute (K : Decls) (rnd : ℚ → ℚ) (ext : External) :
    Command → Int → State → State
  | .ExitCommand, _, state => ExitCommand.Execute state
  | .MoveDownCommand, repeat_, state => MoveDownCommand.Execute K repeat_ state
  | .MoveUpCommand, repeat_, state => MoveUpCommand.Execute K repeat_ state
  | .MoveLeftCommand, repeat_, state => MoveLeftCommand.Execute K repeat_ state
  | .MoveRightCommand, repeat_, state => MoveRightCommand.Execute K repeat_ state
  | .ScreenDownCommand, repeat_, state => ScreenDownCommand.Execute K repeat_ state
  | .ScreenUpCommand, repeat_, state => ScreenUpCommand.Execute K repeat_ state
  | .PageDownCommand, repeat_, state => PageDownCommand.Execute K repeat_ state
  | .PageUpCommand, repeat_, state => PageUpCommand.Execute K repeat_ state
  | .ZoomInCommand, repeat_, state => ZoomInCommand.Execute K rnd repeat_ state
  | .ZoomOutCommand, repeat_, state => ZoomOutCommand.Execute K rnd repeat_ state
  | .SetZoomCommand, repeat_, state => SetZoomCommand.Execute K rnd repeat_ state
  | .SetRotationCommand, repeat_, state => SetRotationCommand.Execute K repeat_ state
  | .RotateCommand increment, repeat_, state => RotateCommand.Execute K increment repeat_ state
  | .ZoomToFitCommand, _, state => ZoomToFitCommand.Execute K state
  | .ZoomToWidthCommand, _, state => ZoomToWidthCommand.Execute K rnd state
  | .GoToPageCommand default_page, repeat_, state =>
    GoToPageCommand.Execute K default_page repeat_ state
  | .ShowOutlineViewCommand, _, state => ShowOutlineViewCommand.Execute K ext state
  | .ShowSearchViewCommand, _, state => ShowSearchViewCommand.Execute K ext state
  | .SaveStateCommand, repeat_, state => SaveStateCommand.Execute K repeat_ state
  | .RestoreStateCommand, repeat_, state => RestoreStateCommand.Execute K repeat_ state
  | .ReloadCommand, _, state => ReloadCommand.Execute ext state
  | .ToggleInvertedColorModeCommand, _, state => ToggleInvertedColorModeCommand.Execute state
  | .ToggleSepiaColorModeCommand, _, state => ToggleSepiaColorModeCommand.Execute state

/-- Modelled from the spec: `Registry` of `command.hpp`, "each entry pairs one
keycode with one Command". -/
structure Registry where
  entries : List (Int × Command)
deriving DecidableEq, Repr

/-- Modelled from the spec: `Registry::Register` adds the entry of a keycode. -/
def Registry.Register (registry : Registry) (key : Int) (command : Command) : Registry :=
  { entries := registry.entries ++ [(key, command)] }

/-- Modelled from the spec: `Registry::Dispatch` "looks up the table; if no
match, the action is silently ignored". -/
def Registry.Dispatch (K : Decls) (rnd : ℚ → ℚ) (ext : External) (registry : Registry)
    (key : Int) (repeat_ : Int) (state : State) : State :=
  match registry.entries.lookup key with
  | some command => command.Execute K rnd ext repeat_ state
  | none => state

/-- The code of a character constant. -/
def key (c : Char) : Int := c.toNat

/-- The curses key code `KEY_DOWN` (0402). -/
def KEY_DOWN : Int := 258
/-- The curses key code `KEY_UP` (0403). -/
def KEY_UP : Int := 259
/-- The curses key code `KEY_LEFT` (0404). -/
def KEY_LEFT : Int := 260
/-- The curses key code `KEY_RIGHT` (0405). -/
def KEY_RIGHT : Int := 261
/-- The curses key code `KEY_HOME` (0406). -/
def KEY_HOME : Int := 262
/-- The curses key code `KEY_NPAGE` (0522). -/
def KEY_NPAGE : Int := 338
/-- The curses key code `KEY_PPAGE` (0523). -/
def KEY_PPAGE : Int := 339
/-- The curses key code `KEY_END` (0550). -/
def KEY_END : Int := 360
/-- The curses key code `KEY_RESIZE` (0632). -/
def KEY_RESIZE : Int := 410

/-- The function `BuildRegistry`: the registrations in source order (9 is the
tab character, 96 the backquote). -/
def BuildRegistry : Registry :=
  ({ entries := [] } : Registry)
    |>.Register (key 'q') .ExitCommand
    |>.Register (key 'h') .MoveLeftCommand
    |>.Register KEY_LEFT .MoveLeftCommand
    |>.Register (key 'j') .MoveDownCommand
    |>.Register KEY_DOWN .MoveDownCommand
    |>.Register (key 'k') .MoveUpCommand
    |>.Register KEY_UP .MoveUpCommand
    |>.Register (key 'l') .MoveRightCommand
    |>.Register KEY_RIGHT .MoveRightCommand
    |>.Register (key ' ') .ScreenDownCommand
    |>.Register 6 .ScreenDownCommand
    |>.Register 2 .ScreenUpCommand
    |>.Register (key 'J') .PageDownCommand
    |>.Register KEY_NPAGE .PageDownCommand
    |>.Register (key 'K') .PageUpCommand
    |>.Register KEY_PPAGE .PageUpCommand
    |>.Register (key '=') .ZoomInCommand
    |>.Register (key '+') .ZoomInCommand
    |>.Register (key '-') .ZoomOutCommand
    |>.Register (key 'z') .SetZoomCommand
    |>.Register (key 's') .ZoomToWidthCommand
    |>.Register (key 'a') .ZoomToFitCommand
    |>.Register (key 'r') .SetRotationCommand
    |>.Register (key '>') (.RotateCommand 90)
    |>.Register (key '.') (.RotateCommand 90)
    |>.Register (key '<') (.RotateCommand (-90))
    |>.Register (key ',') (.RotateCommand (-90))
    |>.Register (key 'g') (.GoToPageCommand 0)
    |>.Register KEY_HOME (.GoToPageCommand 0)
    |>.Register (key 'G') (.GoToPageCommand INT_MAX)
    |>.Register KEY_END (.GoToPageCommand INT_MAX)
    |>.Register 9 .ShowOutlineViewCommand
    |>.Register (key '/') .ShowSearchViewCommand
    |>.Register (key 'm') .SaveStateCommand
    |>.Register 96 .RestoreStateCommand
    |>.Register (key 'e') .ReloadCommand
    |>.Register (key 'I') .ToggleInvertedColorModeCommand
    |>.Register (key 'S') .ToggleSepiaColorModeCommand

/-! ## The main loop -/

/-- The function `get_current_interval`.  The result is `none` when
`state.Intervals[state.Page]` reads outside the vector. -/
def get_current_interval (state : State) : Option Int :=
  if state.Interval ≠ 0 then some state.Interval
  else if state.Intervals.length ≥ to_size_t state.NumPages then
    state.Intervals[to_size_t state.Page]?
  else some 10

/-- The test `isdigit(c)` of `<cctype>` in the C locale. -/
def isdigit (c : Int) : Bool := decide (48 ≤ c ∧ c ≤ 57)

/-- The input loop of `main` (2.2, "Grab input"):
`while (isdigit(c = getch())) { ... }`, run on the keys that `getch` will
return.  The result is the non-digit key `c` that ends the loop, the repeat at
that point and the keys not yet read; `none` when the keys run out before a
non-digit key (`getch` is still waiting). -/
def main.grab_input (K : Decls) : Int → List Int → Option (Int × Int × List Int)
  | _, [] => none
  | repeat_, c :: keys =>
    if isdigit c then
      main.grab_input K
        (if repeat_ = K.NO_REPEAT then c - 48 else wrap32 (repeat_ * 10 + c - 48)) keys
    else some (c, repeat_, keys)

/-- The step 2.1 of the loop of `main`: when `Render` is set the Viewer is given
the state, renders, and reports its state back; `Render` is then set again.
The effect of `Viewer::Render` on the state the Viewer holds is `render`. -/
def main.render (render : ViewerState → ViewerState) (state : State) : State :=
  let state :=
    if state.Render then
      let state := Viewer.SetState state.toViewerState state
      let state := { state with ViewerInst := render state.ViewerInst }
      Viewer.GetState state
    else state
  { state with Render := true }

/-- The check of the page count against the interval table in the loop of
`main` ("Check PDF numpages and intervals count"). -/
def main.check_intervals (state : State) : State :=
  if state.Intervals.length ≠ 0 ∧ state.Intervals.length < to_size_t state.NumPages then
    { state with Intervals := [], Interval := 15 }
  else state

/-- The key that the slideshow branch of the loop of `main` dispatches for a
result of `wait_timer`, together with the state (where `Exit` may be set) and
the new value of `e_flag`. -/
def main.slideshow_key (wait_result : Int) (e_flag : Int) (state : State) :
    Int × Int × State :=
  let c : Int := 0
  if wait_result = key 'q' ∨ wait_result = key 'r' then
    let state := { state with Exit := true }
    if wait_result = key 'q' then (c, 0, state) else (c, 1, state)
  else if wait_result = key 'J' ∨ wait_result = key 'K' then
    let wait_result :=
      if state.Page + 1 = state.NumPages ∧ wait_result = key 'J' then key 'g' else wait_result
    let wait_result :=
      if state.Page + 1 = 1 ∧ wait_result = key 'K' then key 'G' else wait_result
    (wait_result, e_flag, state)
  else (c, e_flag, state)

/-- The slideshow branch of the loop of `main` after `wait_timer` has returned
`wait_result`: the key is chosen and dispatched with the loop's repeat.  The
result is the new state and the new value of `e_flag`. -/
def main.slideshow_step (K : Decls) (rnd : ℚ → ℚ) (registry : Registry) (ext : External)
    (wait_result : Int) (e_flag : Int) (repeat_ : Int) (state : State) : State × Int :=
  let (c, e_flag, state) := main.slideshow_key wait_result e_flag state
  (registry.Dispatch K rnd ext c repeat_ state, e_flag)

/-- The variables that one iteration of the loop of `main` reads and writes:
the program state, the repeat count, the flag `e_flag` and the keys that
`getch` has yet to return. -/
structure Loop where
  state : State
  repeat_ : Int
  e_flag : Int
  keys : List Int
deriving DecidableEq, Repr

/-- What the environment contributes to one iteration of the loop of `main`:
the effect of `Viewer::Render`, the results of the external collaborators and
the result of `wait_timer` (read in the slideshow branch only). -/
structure Iteration where
  render : ViewerState → ViewerState
  ext : External
  wait_result : Int

/-- The body of the `do { ... } while (!state.Exit)` loop of `main` (the branch
of `#if 0 ... #else` that is compiled).  In the manual branch `continue` on
`KEY_RESIZE` jumps to the loop condition, past `repeat = Command::NO_REPEAT`.
The result is `none` when `getch` is still waiting for a non-digit key. -/
def main.loop_body (K : Decls) (rnd : ℚ → ℚ) (registry : Registry) (it : Iteration)
    (l : Loop) : Option Loop :=
  let state := main.render it.render l.state
  let state := main.check_intervals state
  if state.Interval = 0 ∧ state.Intervals.length = 0 then
    match main.grab_input K l.repeat_ l.keys with
    | none => none
    | some (c, repeat_, keys) =>
      if c = KEY_RESIZE then
        some { l with state := state, repeat_ := repeat_, keys := keys }
      else
        let state := registry.Dispatch K rnd it.ext c repeat_ state
        some { l with state := state, repeat_ := K.NO_REPEAT, keys := keys }
  else
    let (state, e_flag) :=
      main.slideshow_step K rnd registry it.ext it.wait_result l.e_flag l.repeat_ state
    some { l with state := state, repeat_ := K.NO_REPEAT, e_flag := e_flag }

/-- The loop `do { ... } while (!state.Exit)` of `main`, run for at most as
many iterations as the environment describes: the variables when the loop has
ended, `none` when it has not ended. -/
def main.loop (K : Decls) (rnd : ℚ → ℚ) (registry : Registry) :
    List Iteration → Loop → Option Loop
  | [], _ => none
  | it :: its, l =>
    match main.loop_body K rnd registry it l with
    | none => none
    | some l => if l.state.Exit then some l else main.loop K rnd registry its l

/-- The argument that the slideshow branch of the loop of `main` passes to
`wait_timer`, for the state that reaches the check of the interval table (the
state after step 2.1): `get_current_interval` of the checked state. -/
def main.wait_duration (state : State) : Option Int :=
  get_current_interval (main.check_intervals state)

/-- The signal handler `reload_handler`: the new value of `e_flag`. -/
def reload_handler (_sig : Int) : Int := 1

/-! ## Process termination -/

/-- The value of `EXIT_SUCCESS` in `<cstdlib>`. -/
def EXIT_SUCCESS : Int := 0

/-- The value of `EXIT_FAILURE` in `<cstdlib>`. -/
def EXIT_FAILURE : Int := 1

/-- How a call ends: it returns a value, the process is ended by `exit(status)`,
or an exception leaves the function. -/
inductive Outcome (α : Type) where
  | returns (a : α)
  | exits (status : Int)
  | throws
deriving DecidableEq, Repr

/-- The value that `main` returns after the loop and the clean-up, from the
value of `e_flag` at that point. -/
def main.exit_status (e_flag : Int) : Int :=
  if e_flag = 0 then EXIT_SUCCESS else EXIT_FAILURE

/-! ## Line drawing -/

/-- The first loop of `line_to` (slope below 1): the positions of the
`WritePixel` calls, in order, of the `n` iterations that remain when the
current point is `(x0, y0)` and the error term is `E`.  The colour is the same
in every call and is left out. -/
def line_to.loop_x (sx sy dx dy : Int) : Nat → Int → Int → Int → List (Int × Int)
  | 0, _, _, _ => []
  | n + 1, x0, y0, E =>
    (x0, y0) ::
      (if E + 2 * dy ≥ 0 then
        line_to.loop_x sx sy dx dy n (x0 + sx) (y0 + sy) (E + 2 * dy - 2 * dx)
      else line_to.loop_x sx sy dx dy n (x0 + sx) y0 (E + 2 * dy))

/-- The second loop of `line_to` (slope 1 or above), as `line_to.loop_x`. -/
def line_to.loop_y (sx sy dx dy : Int) : Nat → Int → Int → Int → List (Int × Int)
  | 0, _, _, _ => []
  | n + 1, x0, y0, E =>
    (x0, y0) ::
      (if E + 2 * dx ≥ 0 then
        line_to.loop_y sx sy dx dy n (x0 + sx) (y0 + sy) (E + 2 * dx - 2 * dy)
      else line_to.loop_y sx sy dx dy n x0 (y0 + sy) (E + 2 * dx))

/-- The function `line_to`: the positions of its `WritePixel` calls, in order.
The loop `for (i = 0; i <= dx; ++i)` runs `dx + 1` times. -/
def line_to (x0 y0 x1 y1 : Int) : List (Int × Int) :=
  let dx := if x1 > x0 then x1 - x0 else x0 - x1
  let dy := if y1 > y0 then y1 - y0 else y0 - y1
  let sx : Int := if x1 > x0 then 1 else -1
  let sy : Int := if y1 > y0 then 1 else -1
  if dx > dy then line_to.loop_x sx sy dx dy (dx + 1).toNat x0 y0 (-dx)
  else line_to.loop_y sx sy dx dy (dy + 1).toNat x0 y0 (-dy)

/-! ## GPIO buttons -/

/-- The enumeration `GPIO_STATUS`. -/
inductive GPIO_STATUS where
  | OFF
  | ON
deriving DecidableEq, Repr

/-- The enumeration `GPIO_MODE`. -/
inductive GPIO_MODE where
  | PULLUP
  | PULLDOWN
deriving DecidableEq, Repr

/-- The enumeration `GPIO_DIRECTION`. -/
inductive GPIO_DIRECTION where
  | INPUT
  | OUTPUT
deriving DecidableEq, Repr

/-- The class `GPIO`: its member `bcws_`, the configured lines. -/
structure GPIO where
  bcws_ : List (Int × GPIO_DIRECTION × GPIO_MODE)
deriving DecidableEq, Repr

/-- The files `/sys/class/gpio/gpio<bcw>/value` as `GPIO::get_value` finds them:
for a line, `none` when `fopen` returns `NULL`, otherwise the first byte of the
file. -/
abbrev ValueFiles := Int → Option Char

/-- The method `GPIO::get_value`: when the value file cannot be opened the
process exits with `EXIT_FAILURE`; the byte `'1'` reads as `OFF`, any other
byte as `ON`. -/
def GPIO.get_value (files : ValueFiles) (bcw : Int) : Outcome GPIO_STATUS :=
  match files bcw with
  | none => Outcome.exits EXIT_FAILURE
  | some state => Outcome.returns (if state = '1' then GPIO_STATUS.OFF else GPIO_STATUS.ON)

/-- The loop of `GPIO::get_buttons` over the configured lines, in order. -/
def GPIO.get_buttons.loop (files : ValueFiles) :
    List (Int × GPIO_DIRECTION × GPIO_MODE) → Outcome (List (Int × GPIO_STATUS))
  | [] => Outcome.returns []
  | i :: rest =>
    match GPIO.get_value files i.1 with
    | Outcome.returns status =>
      match GPIO.get_buttons.loop files rest with
      | Outcome.returns result => Outcome.returns ((i.1, status) :: result)
      | Outcome.exits e => Outcome.exits e
      | Outcome.throws => Outcome.throws
    | Outcome.exits e => Outcome.exits e
    | Outcome.throws => Outcome.throws

/-- The method `GPIO::get_buttons`. -/
def GPIO.get_buttons (gpio : GPIO) (files : ValueFiles) :
    Outcome (List (Int × GPIO_STATUS)) :=
  GPIO.get_buttons.loop files gpio.bcws_

/-- The function `setup_gpio`: the lines 16, 20 and 21 as pulled-up inputs. -/
def setup_gpio : GPIO :=
  { bcws_ := [(16, GPIO_DIRECTION.INPUT, GPIO_MODE.PULLUP),
      (20, GPIO_DIRECTION.INPUT, GPIO_MODE.PULLUP),
      (21, GPIO_DIRECTION.INPUT, GPIO_MODE.PULLUP)] }

/-- The decoding in `buttonHit` of a result of three entries. -/
def buttonHit.decode (r1 r2 r3 : Int × GPIO_STATUS) : Int :=
  let bcw1 := r1.1
  let status1 := r1.2
  let bcw2 := r2.1
  let status2 := r2.2
  let bcw3 := r3.1
  let status3 := r3.2
  let status16 :=
    if bcw1 = 16 then status1 else if bcw2 = 16 then status2
    else if bcw3 = 16 then status3 else GPIO_STATUS.OFF
  let status20 :=
    if bcw1 = 20 then status1 else if bcw2 = 20 then status2
    else if bcw3 = 20 then status3 else GPIO_STATUS.OFF
  let status21 :=
    if bcw1 = 21 then status1 else if bcw2 = 21 then status2
    else if bcw3 = 21 then status3 else GPIO_STATUS.OFF
  if status16 = GPIO_STATUS.ON ∧ status20 = GPIO_STATUS.OFF ∧ status21 = GPIO_STATUS.OFF then
    key 'J'
  else if status16 = GPIO_STATUS.OFF ∧ status20 = GPIO_STATUS.ON ∧
      status21 = GPIO_STATUS.OFF then
    key 'P'
  else if status16 = GPIO_STATUS.OFF ∧ status20 = GPIO_STATUS.OFF ∧
      status21 = GPIO_STATUS.ON then
    key 'K'
  else 0

/-- The function `buttonHit`; `gpio` is `none` for a null pointer.  The pauses
(`usleep`) before a key is returned are not part of the model. -/
def buttonHit (gpio : Option GPIO) (files : ValueFiles) : Outcome Int :=
  match gpio with
  | none => Outcome.returns 0
  | some g =>
    match g.get_buttons files with
    | Outcome.returns result =>
      match result with
      | [r1, r2, r3] => Outcome.returns (buttonHit.decode r1 r2 r3)
      | _ => Outcome.returns 0
    | Outcome.exits e => Outcome.exits e
    | Outcome.throws => Outcome.throws

/-! ## Strings and number conversion

A C string or `std::string` is the list of its characters. -/

/-- The test `isspace(c)` of `<cctype>` in the C locale: space, `\t`, `\n`,
`\v`, `\f`, `\r`. -/
def isspace (c : Char) : Bool :=
  c = ' ' || c.toNat = 9 || c.toNat = 10 || c.toNat = 11 || c.toNat = 12 || c.toNat = 13

/-- The value of a run of decimal digit characters. -/
def decimalOfChars (cs : List Char) : Int :=
  cs.foldl (fun v c => v * 10 + ((c.toNat : Int) - 48)) 0

/-- An optional sign at the head of a string: whether it is `-`, and the rest. -/
def takeSign : List Char → Bool × List Char
  | '-' :: t => (true, t)
  | '+' :: t => (false, t)
  | s => (false, s)

/-- The function `std::stoi(str)` (base 10): leading white space is skipped, an
optional sign and the longest run of digits are read; `none` stands for the
exception thrown when there is no digit (`std::invalid_argument`) or the value
does not fit an `int` (`std::out_of_range`). -/
def stoi (str : List Char) : Option Int :=
  let s := str.dropWhile isspace
  let sign := takeSign s
  let ds := sign.2.takeWhile Char.isDigit
  if ds = [] then none
  else
    let v := if sign.1 then -decimalOfChars ds else decimalOfChars ds
    if INT_MIN ≤ v ∧ v ≤ INT_MAX then some v else none

/-- The search `string.find(separator, offset)` from the suffix of `string` that
starts at index `i`: the index of the first occurrence, `none` for `npos`. -/
def findFrom (separator : List Char) : List Char → Nat → Option Nat
  | [], i => if separator = [] then some i else none
  | c :: s, i =>
    if separator.isPrefixOf (c :: s) then some i else findFrom separator s (i + 1)

/-- The method `std::string::find(separator, offset)`. -/
def string_find (string separator : List Char) (offset : Nat) : Option Nat :=
  if string.length < offset then none else findFrom separator (string.drop offset) offset

/-- The loop `while (true)` of `split_intervals`, run for at most `fuel`
iterations from `offset` with `list` collected so far.  The outer `none` means
that the fuel ran out; `Outcome.throws` that `std::stoi` threw. -/
def split_intervals.loop (string separator : List Char) :
    Nat → Nat → List Int → Option (Outcome (List Int))
  | 0, _, _ => none
  | fuel + 1, offset, list =>
    match string_find string separator offset with
    | none =>
      match stoi (string.drop offset) with
      | none => some Outcome.throws
      | some val => some (Outcome.returns (list ++ [val]))
    | some pos =>
      match stoi ((string.drop offset).take (pos - offset)) with
      | none => some Outcome.throws
      | some val =>
        split_intervals.loop string separator fuel (pos + separator.length) (list ++ [val])

/-- The function `split_intervals`.  Every iteration of its loop but the last
moves `offset` forward by at least the length of the separator, so
`string.length + 1` iterations are enough. -/
def split_intervals (string separator : List Char) : Option (Outcome (List Int)) :=
  if separator.length = 0 then some (Outcome.returns [0])
  else split_intervals.loop string separator (string.length + 1) 0 []

/-- What a call `sscanf(str, format, &x)` with one conversion does: the value it
returns (`-1` is `EOF`) and the value it stores, if it stores one. -/
structure Scanned (α : Type) where
  ret : Int
  value : Option α
deriving DecidableEq, Repr

/-- The call `sscanf(str, "%d", &x)` of the C library: white space is skipped;
at the end of the string the call returns `EOF`; without a digit after the
optional sign it returns 0 and stores nothing; otherwise it returns 1 and
stores the value of the digits.  Values outside `int` are not modelled. -/
def sscanf_d (str : List Char) : Scanned Int :=
  let s := str.dropWhile isspace
  if s = [] then { ret := -1, value := none }
  else
    let sign := takeSign s
    let ds := sign.2.takeWhile Char.isDigit
    if ds = [] then { ret := 0, value := none }
    else { ret := 1, value := some (if sign.1 then -decimalOfChars ds else decimalOfChars ds) }

/-- The exponent part of a decimal floating constant at the head of a string:
`e` or `E`, an optional sign and at least one digit; 0 when there is none. -/
def scanExponent : List Char → Int
  | c :: t =>
    if c = 'e' ∨ c = 'E' then
      let sign := takeSign t
      let ds := sign.2.takeWhile Char.isDigit
      if ds = [] then 0 else if sign.1 then -decimalOfChars ds else decimalOfChars ds
    else 0
  | [] => 0

/-- The call `sscanf(str, "%f", &x)` of the C library on decimal notation
(digits, an optional fraction, an optional exponent); the value stored is
rounded to `float` by `rnd`.  Hexadecimal notation, `inf` and `nan` are not
modelled. -/
def sscanf_f (rnd : ℚ → ℚ) (str : List Char) : Scanned ℚ :=
  let s := str.dropWhile isspace
  if s = [] then { ret := -1, value := none }
  else
    let sign := takeSign s
    let ip := sign.2.takeWhile Char.isDigit
    let afterInt := sign.2.dropWhile Char.isDigit
    let fp := match afterInt with
      | '.' :: t => t.takeWhile Char.isDigit
      | _ => []
    let afterFrac := match afterInt with
      | '.' :: t => t.dropWhile Char.isDigit
      | _ => afterInt
    if ip = [] ∧ fp = [] then { ret := 0, value := none }
    else
      let mag : ℚ := ((decimalOfChars ip : Int) : ℚ) +
        ((decimalOfChars fp : Int) : ℚ) / (10 : ℚ) ^ fp.length
      let e := scanExponent afterFrac
      let v := mag * (10 : ℚ) ^ e
      { ret := 1, value := some (rnd (if sign.1 then -v else v)) }

/-- The function `ToLower`. -/
def ToLower (s : List Char) : List Char := s.map Char.toLower

/-! ## Command line -/

/-- The tag `RENDER_CACHE_SIZE` of `ParseCommandLine`. -/
def ParseCommandLine.RENDER_CACHE_SIZE : Int := 4096
/-- The tag `ZOOM_TO_WIDTH` of `ParseCommandLine`. -/
def ParseCommandLine.ZOOM_TO_WIDTH : Int := 4097
/-- The tag `ZOOM_TO_FIT` of `ParseCommandLine`. -/
def ParseCommandLine.ZOOM_TO_FIT : Int := 4098
/-- The tag `FB` of `ParseCommandLine`. -/
def ParseCommandLine.FB : Int := 4099
/-- The tag `PRINT_FB_DEBUG_INFO_AND_EXIT` of `ParseCommandLine`. -/
def ParseCommandLine.PRINT_FB_DEBUG_INFO_AND_EXIT : Int := 4100

/-- The body of the `switch (opt_char)` of `ParseCommandLine` for one option
returned by `getopt_long` with its argument `optarg` (built with imlib2, so
that `image` is a format). -/
def ParseCommandLine.option (K : Decls) (rnd : ℚ → ℚ) (opt_char : Int) (optarg : List Char)
    (state : State) : Outcome State :=
  if opt_char = key 'h' then Outcome.exits EXIT_FAILURE
  else if opt_char = ParseCommandLine.FB then
    Outcome.returns { state with FramebufferDevice := optarg }
  else if opt_char = key 'f' then
    if ToLower optarg = ['p', 'd', 'f'] then
      Outcome.returns { state with DocumentType := DocumentType.PDF }
    else if ToLower optarg = ['i', 'm', 'a', 'g', 'e'] then
      Outcome.returns { state with DocumentType := DocumentType.IMAGE }
    else Outcome.exits EXIT_FAILURE
  else if opt_char = key 'P' then
    Outcome.returns { state with FilePassword := some optarg }
  else if opt_char = ParseCommandLine.RENDER_CACHE_SIZE then
    let scan := sscanf_d optarg
    let state := { state with RenderCacheSize := scan.value.getD state.RenderCacheSize }
    if scan.ret < 1 then Outcome.exits EXIT_FAILURE
    else Outcome.returns { state with RenderCacheSize := max 1 (state.RenderCacheSize + 1) }
  else if opt_char = key 'p' then
    let scan := sscanf_d optarg
    let state := { state with Page := scan.value.getD state.Page }
    if scan.ret < 1 then Outcome.exits EXIT_FAILURE
    else Outcome.returns { state with Page := state.Page - 1 }
  else if opt_char = key 'z' then
    let scan := sscanf_f rnd optarg
    let state := { state with Zoom := scan.value.getD state.Zoom }
    if scan.ret < 1 then Outcome.exits EXIT_FAILURE
    else Outcome.returns { state with Zoom := rnd (state.Zoom / 100) }
  else if opt_char = ParseCommandLine.ZOOM_TO_WIDTH then
    Outcome.returns { state with Zoom := K.ZOOM_TO_WIDTH }
  else if opt_char = ParseCommandLine.ZOOM_TO_FIT then
    Outcome.returns { state with Zoom := K.ZOOM_TO_FIT }
  else if opt_char = key 'r' then
    let scan := sscanf_d optarg
    let state := { state with Rotation := scan.value.getD state.Rotation }
    if scan.ret < 1 then Outcome.exits EXIT_FAILURE
    else Outcome.returns state
  else if opt_char = key 'c' then
    let arg := ToLower optarg
    if arg = ['n', 'o', 'r', 'm', 'a', 'l'] ∨ arg = [] then
      Outcome.returns { state with ColorMode := ColorMode.NORMAL }
    else if arg = ['i', 'n', 'v', 'e', 'r', 't'] ∨
        arg = ['i', 'n', 'v', 'e', 'r', 't', 'e', 'd'] then
      Outcome.returns { state with ColorMode := ColorMode.INVERTED }
    else if arg = ['s', 'e', 'p', 'i', 'a'] then
      Outcome.returns { state with ColorMode := ColorMode.SEPIA }
    else Outcome.exits EXIT_FAILURE
  else if opt_char = key 'i' then
    let scan := sscanf_d optarg
    let state := { state with Interval := scan.value.getD state.Interval }
    if scan.ret < 0 then Outcome.exits EXIT_FAILURE
    else Outcome.returns { state with Zoom := K.ZOOM_TO_FIT }
  else if opt_char = key 'j' then
    match split_intervals optarg [','] with
    | some (Outcome.returns intervals) =>
      Outcome.returns { state with Intervals := intervals, Zoom := K.ZOOM_TO_FIT }
    | some (Outcome.exits e) => Outcome.exits e
    | _ => Outcome.throws
  else if opt_char = key 's' then Outcome.returns { state with ShowProgress := true }
  else if opt_char = key 'b' then Outcome.returns { state with UseButton := true }
  else if opt_char = ParseCommandLine.PRINT_FB_DEBUG_INFO_AND_EXIT then
    Outcome.returns { state with PrintFBDebugInfoAndExit := true }
  else Outcome.exits EXIT_FAILURE

/-- The loop `for (;;)` of `ParseCommandLine` over the options that
`getopt_long` returns, in order, each with its `optarg`. -/
def ParseCommandLine.options (K : Decls) (rnd : ℚ → ℚ) :
    List (Int × List Char) → State → Outcome State
  | [], state => Outcome.returns state
  | (opt_char, optarg) :: rest, state =>
    match ParseCommandLine.option K rnd opt_char optarg state with
    | Outcome.returns state => ParseCommandLine.options K rnd rest state
    | Outcome.exits e => Outcome.exits e
    | Outcome.throws => Outcome.throws

/-- The function `ParseCommandLine`, on the options that `getopt_long` returns
and the arguments `argv[optind..]` left after them. -/
def ParseCommandLine (K : Decls) (rnd : ℚ → ℚ) (opts : List (Int × List Char))
    (files : List (List Char)) (state : State) : Outcome State :=
  match ParseCommandLine.options K rnd opts state with
  | Outcome.returns state =>
    match files with
    | [] =>
      if ¬ state.PrintFBDebugInfoAndExit then Outcome.exits EXIT_FAILURE
      else Outcome.returns state
    | [file] => Outcome.returns { state with FilePath := file }
    | _ => Outcome.exits EXIT_FAILURE
  | Outcome.exits e => Outcome.exits e
  | Outcome.throws => Outcome.throws

/-! ## Vocabulary of the claims -/

/-- The decimal value of a sequence of digit keys (`'0'` is 48). -/
def decimalValue (digits : List Int) : Int :=
  digits.foldl (fun v c => v * 10 + (c - 48)) 0

/-- The clamp of the specification: `n` brought into `[lo, hi]`. -/
def specClamp (n lo hi : Int) : Int :=
  if n < lo then lo else if hi < n then hi else n

/-- One change of the program state between two commands of interest: a command
executed with a repeat and the results of the external collaborators, or a
render step of the loop with the effect of `Viewer::Render`. -/
inductive Change where
  | command (ext : External) (c : Command) (repeat_ : Int)
  | render (f : ViewerState → ViewerState)

/-- The state after one change. -/
def Change.apply (K : Decls) (rnd : ℚ → ℚ) : Change → State → State
  | .command ext c repeat_, state => c.Execute K rnd ext repeat_ state
  | .render f, state => main.render f state

/-- The state after a sequence of changes, first to last. -/
def applyChanges (K : Decls) (rnd : ℚ → ℚ) (changes : List Change) (state : State) : State :=
  changes.foldl (fun s ch => ch.apply K rnd s) state

/-- Whether a change writes register `n`: the execution of a
`SaveStateCommand` whose repeat names that register. -/
def Change.savesRegister (K : Decls) (n : Int) : Change → Bool
  | .command _ .SaveStateCommand repeat_ => decide (RepeatOrDefault K repeat_ 0 = n)
  | _ => false

/-- A choice of the header constants: `NO_REPEAT = -1`, zoom bounds 10% and
1000%, negative sentinels for the automatic zoom modes. -/
def sampleDecls : Decls :=
  { NO_REPEAT := -1, MIN_ZOOM := 1 / 10, MAX_ZOOM := 10, ZOOM_TO_FIT := -3,
    ZOOM_TO_WIDTH := -4, DEFAULT_RENDER_CACHE_SIZE := 5 }

/-- A navigation state: the last page of a three-page document at 100%. -/
def sampleViewerState : ViewerState :=
  { Page := 2, NumPages := 3, Zoom := 1, ActualZoom := 1, Rotation := 0,
    ColorMode := ColorMode.NORMAL, XOffset := 0, YOffset := 0, PageWidth := 800,
    PageHeight := 1200, ScreenWidth := 1024, ScreenHeight := 768, Interval := 0,
    Intervals := [], ShowProgress := false, UseButton := false }

/-- A program state around `sampleViewerState`, with no register saved. -/
def sampleState : State :=
  { toViewerState := sampleViewerState, PrintFBDebugInfoAndExit := false, Exit := false,
    Render := true, DocumentType := DocumentType.AUTO_DETECT, RenderCacheSize := 5,
    FilePath := [], FilePassword := none, FramebufferDevice := [],
    ViewerInst := sampleViewerState, _saved_states := [] }

/-- External collaborators that report nothing: no outline or search
destination, and a file that loads. -/
def sampleExternal : External :=
  { outline_dest_page := none, search_dest_page := -1, load_file := true }

/-- The sample state scrolled down by eight pixels. -/
def sampleScrolledState : State :=
  { sampleState with YOffset := 8 }

/-- The sample state on the second page, with one slideshow interval per page. -/
def sampleIntervalState : State :=
  { sampleState with Page := 1, Interval := 0, Intervals := [5, 7, 9] }

/-- An iteration whose render leaves the state as it is. -/
def sampleIteration : Iteration :=
  { render := id, ext := sampleExternal, wait_result := 0 }

/-- The loop variables at the start of the loop on the sample state, with the
keys `1`, `2`, `KEY_RESIZE`, `3`, `j` still to be read. -/
def sampleLoop : Loop :=
  { state := sampleState, repeat_ := sampleDecls.NO_REPEAT, e_flag := 0,
    keys := [49, 50, 410, 51, 106] }

/-- Two changes between a save and a restore: a page up and a render. -/
def sampleChanges : List Change :=
  [Change.command sampleExternal Command.PageUpCommand sampleDecls.NO_REPEAT,
    Change.render id]

/-- The sample state on the second page, with a table of two intervals for its
three pages. -/
def sampleShortTableState : State :=
  { sampleState with Page := 1, Interval := 0, Intervals := [5, 7] }

/-- The sample state with the scalar interval 5 and a table of two intervals
for its three pages. -/
def sampleScalarShortTableState : State :=
  { sampleState with Page := 1, Interval := 5, Intervals := [5, 7] }

/-- The sample state with the scalar interval 5 and no table. -/
def sampleScalarState : State :=
  { sampleState with Interval := 5 }

/-- Value files in which only the button on line 16 is pressed (a pressed
button reads `'0'`). -/
def samplePressed16 : ValueFiles :=
  fun bcw => if bcw = 16 then some '0' else some '1'

/-- Value files of which the one of line 16 cannot be opened. -/
def sampleUnopened16 : ValueFiles :=
  fun bcw => if bcw = 16 then none else some '1'

/-- The loop variables in the manual regime after a `SIGINT` has run
`reload_handler`, with the key `q` still to be read. -/
def sampleSignalledLoop : Loop :=
  { state := sampleState, repeat_ := sampleDecls.NO_REPEAT, e_flag := reload_handler 2,
    keys := [113] }

/-! ## Auxiliary lemmas -/

theorem truncToInt_abs_sub_lt_one (x : ℚ) : |((truncToInt x : Int) : ℚ) - x| < 1 := by
  unfold truncToInt
  split_ifs with h
  · rw [abs_lt]
    constructor
    · have := Int.lt_floor_add_one x
      linarith
    · have := Int.floor_le x
      linarith
  · rw [abs_lt]
    constructor
    · have := Int.le_ceil x
      linarith
    · have := Int.ceil_lt_add_one x
      linarith

theorem truncToInt_intCast (n : Int) : truncToInt (n : ℚ) = n := by
  unfold truncToInt
  split_ifs <;> simp

theorem lookup_filter_ne (n k : Int) (m : List (Int × ViewerState)) (h : k ≠ n) :
    (m.filter (fun p => decide (p.1 ≠ k))).lookup n = m.lookup n := by
  induction m with
  | nil => rfl
  | cons p m ih =>
    obtain ⟨a, v⟩ := p
    by_cases hak : a = k
    · subst hak
      have hna : (n == a) = false := by simpa using fun h' => h h'.symm
      simpa [List.filter_cons, List.lookup_cons, hna] using ih
    · by_cases hna : n = a
      · subst hna
        simp [List.filter_cons, List.lookup_cons, hak]
      · have hna' : (n == a) = false := by simpa using hna
        simpa [List.filter_cons, List.lookup_cons, hak, hna'] using ih

theorem lookup_store_self (n : Int) (v : ViewerState) (m : List (Int × ViewerState)) :
    (StateCommand.store n v m).lookup n = some v := by
  simp [StateCommand.store, List.lookup_cons]

theorem lookup_store_ne (n k : Int) (v : ViewerState) (m : List (Int × ViewerState))
    (h : k ≠ n) : (StateCommand.store k v m).lookup n = m.lookup n := by
  have hnk : (n == k) = false := by simpa using fun h' => h h'.symm
  simp only [StateCommand.store, List.lookup_cons, hnk]
  exact lookup_filter_ne n k m h

theorem Command.Execute_saved_states (K : Decls) (rnd : ℚ → ℚ) (ext : External) (c : Command)
    (repeat_ : Int) (state : State) (h : c ≠ Command.SaveStateCommand) :
    (c.Execute K rnd ext repeat_ state)._saved_states = state._saved_states := by
  cases c <;>
    simp only [Command.Execute, ExitCommand.Execute, MoveDownCommand.Execute,
      MoveUpCommand.Execute, MoveLeftCommand.Execute, MoveRightCommand.Execute,
      ScreenDownCommand.Execute, ScreenUpCommand.Execute, PageDownCommand.Execute,
      PageUpCommand.Execute, ZoomInCommand.Execute, ZoomOutCommand.Execute,
      SetZoomCommand.Execute, ZoomCommand.SetZoom, SetRotationCommand.Execute,
      RotateCommand.Execute, ZoomToFitCommand.Execute, ZoomToWidthCommand.Execute,
      GoToPageCommand.Execute, ShowOutlineViewCommand.Execute, ShowSearchViewCommand.Execute,
      RestoreStateCommand.Execute, ReloadCommand.Execute, Viewer.GetState, Viewer.SetState,
      ToggleInvertedColorModeCommand.Execute, ToggleSepiaColorModeCommand.Execute] <;>
    first
      | rfl
      | exact absurd rfl h
      | (split_ifs <;> rfl)
      | (split <;> rfl)
      | (split <;> first | rfl | (split_ifs <;> rfl))

theorem main.render_saved_states (f : ViewerState → ViewerState) (state : State) :
    (main.render f state)._saved_states = state._saved_states := by
  unfold main.render
  dsimp only
  split_ifs <;> rfl

theorem Change.apply_lookup (K : Decls) (rnd : ℚ → ℚ) (n : Int) (ch : Change) (state : State)
    (h : ch.savesRegister K n = false) :
    (ch.apply K rnd state)._saved_states.lookup n = state._saved_states.lookup n := by
  cases ch with
  | render f => simp [Change.apply, main.render_saved_states]
  | command ext c repeat_ =>
    by_cases hc : c = Command.SaveStateCommand
    · subst hc
      have hne : RepeatOrDefault K repeat_ 0 ≠ n := by
        simpa [Change.savesRegister] using h
      simp only [Change.apply, Command.Execute, SaveStateCommand.Execute]
      exact lookup_store_ne n _ _ _ hne
    · simp [Change.apply, Command.Execute_saved_states K rnd ext c repeat_ state hc]

theorem applyChanges_lookup (K : Decls) (rnd : ℚ → ℚ) (n : Int) (changes : List Change) :
    ∀ state : State, (∀ ch ∈ changes, ch.savesRegister K n = false) →
      (applyChanges K rnd changes state)._saved_states.lookup n =
        state._saved_states.lookup n := by
  induction changes with
  | nil => intro state _; rfl
  | cons ch rest ih =>
    intro state h
    have h1 := h ch (List.mem_cons_self _ _)
    have h2 : ∀ c ∈ rest, c.savesRegister K n = false :=
      fun c hc => h c (List.mem_cons_of_mem _ hc)
    simp only [applyChanges, List.foldl_cons] at ih ⊢
    rw [ih _ h2, Change.apply_lookup K rnd n ch state h1]

theorem wrap32_of_range (x : Int) (h0 : 0 ≤ x) (h1 : x ≤ INT_MAX) : wrap32 x = x := by
  unfold wrap32
  unfold INT_MAX at h1
  omega

theorem isdigit_iff (c : Int) : isdigit c = true ↔ 48 ≤ c ∧ c ≤ 57 := by
  simp [isdigit]

theorem foldl_digits_ge (ds : List Int) :
    ∀ acc : Int, (∀ d ∈ ds, isdigit d = true) → 0 ≤ acc →
      acc ≤ ds.foldl (fun v c => v * 10 + (c - 48)) acc := by
  induction ds with
  | nil => intro acc _ _; exact le_refl _
  | cons d ds ih =>
    intro acc hd h0
    have hd1 := (isdigit_iff d).1 (hd d (List.mem_cons_self _ _))
    have hd2 : ∀ x ∈ ds, isdigit x = true := fun x hx => hd x (List.mem_cons_of_mem _ hx)
    simp only [List.foldl_cons]
    have := ih (acc * 10 + (d - 48)) hd2 (by omega)
    omega

theorem grab_input_digits (K : Decls) (hK : K.NO_REPEAT < 0) (c : Int)
    (hc : isdigit c = false) (keys : List Int) (ds : List Int) :
    ∀ acc : Int, (∀ d ∈ ds, isdigit d = true) → 0 ≤ acc →
      ds.foldl (fun v c => v * 10 + (c - 48)) acc ≤ INT_MAX →
      main.grab_input K acc (ds ++ c :: keys) =
        some (c, ds.foldl (fun v c => v * 10 + (c - 48)) acc, keys) := by
  induction ds with
  | nil =>
    intro acc _ _ _
    simp [main.grab_input, hc]
  | cons d ds ih =>
    intro acc hd h0 hv
    have hd0 := hd d (List.mem_cons_self _ _)
    have hd1 := (isdigit_iff d).1 hd0
    have hd2 : ∀ x ∈ ds, isdigit x = true := fun x hx => hd x (List.mem_cons_of_mem _ hx)
    simp only [List.foldl_cons] at hv
    have hge := foldl_digits_ge ds (acc * 10 + (d - 48)) hd2 (by omega)
    have hne : acc ≠ K.NO_REPEAT := by omega
    have hw : wrap32 (acc * 10 + d - 48) = acc * 10 + (d - 48) := by
      rw [show acc * 10 + d - 48 = acc * 10 + (d - 48) by ring]
      exact wrap32_of_range _ (by omega) (by omega)
    simp only [List.cons_append, main.grab_input, hd0, if_true, if_neg hne, hw,
      List.foldl_cons]
    exact ih _ hd2 (by omega) hv

theorem decimalValue_nonneg (ds : List Int) (hd : ∀ d ∈ ds, isdigit d = true) :
    0 ≤ decimalValue ds :=
  foldl_digits_ge ds 0 hd (le_refl _)

theorem grab_input_from_no_repeat (K : Decls) (hK : K.NO_REPEAT < 0) (c : Int)
    (hc : isdigit c = false) (keys : List Int) (ds : List Int)
    (hd : ∀ d ∈ ds, isdigit d = true) (hne : ds ≠ [])
    (hv : decimalValue ds ≤ INT_MAX) :
    main.grab_input K K.NO_REPEAT (ds ++ c :: keys) = some (c, decimalValue ds, keys) := by
  cases ds with
  | nil => exact absurd rfl hne
  | cons d ds =>
    have hd0 := hd d (List.mem_cons_self _ _)
    have hd1 := (isdigit_iff d).1 hd0
    have hd2 : ∀ x ∈ ds, isdigit x = true := fun x hx => hd x (List.mem_cons_of_mem _ hx)
    simp only [decimalValue, List.foldl_cons, zero_mul, zero_add] at hv ⊢
    simp only [List.cons_append, main.grab_input, hd0, if_true]
    exact grab_input_digits K hK c hc keys ds (d - 48) hd2 (by omega) hv

theorem slideshow_key_advance (e_flag : Int) (state : State) :
    main.slideshow_key (key 'J') e_flag state =
      (if state.Page + 1 = state.NumPages then key 'g' else key 'J', e_flag, state) := by
  have hJ : key 'J' = 74 := by decide
  have hq : key 'q' = 113 := by decide
  have hr : key 'r' = 114 := by decide
  have hK : key 'K' = 75 := by decide
  have hg : key 'g' = 103 := by decide
  have hG : key 'G' = 71 := by decide
  simp only [main.slideshow_key, hJ, hq, hr, hK, hg, hG]
  split_ifs <;> simp_all

theorem slideshow_key_back (e_flag : Int) (state : State) :
    main.slideshow_key (key 'K') e_flag state =
      (if state.Page + 1 = 1 then key 'G' else key 'K', e_flag, state) := by
  have hJ : key 'J' = 74 := by decide
  have hq : key 'q' = 113 := by decide
  have hr : key 'r' = 114 := by decide
  have hK : key 'K' = 75 := by decide
  have hg : key 'g' = 103 := by decide
  have hG : key 'G' = 71 := by decide
  simp only [main.slideshow_key, hJ, hq, hr, hK, hg, hG]
  split_ifs <;> simp_all

theorem dispatch_g (K : Decls) (rnd : ℚ → ℚ) (ext : External) (repeat_ : Int) (state : State) :
    BuildRegistry.Dispatch K rnd ext (key 'g') repeat_ state =
      GoToPageCommand.Execute K 0 repeat_ state := by
  have h : BuildRegistry.entries.lookup (key 'g') = some (Command.GoToPageCommand 0) := by
    decide
  simp only [Registry.Dispatch, h, Command.Execute]

theorem dispatch_G (K : Decls) (rnd : ℚ → ℚ) (ext : External) (repeat_ : Int) (state : State) :
    BuildRegistry.Dispatch K rnd ext (key 'G') repeat_ state =
      GoToPageCommand.Execute K INT_MAX repeat_ state := by
  have h : BuildRegistry.entries.lookup (key 'G') = some (Command.GoToPageCommand INT_MAX) := by
    decide
  simp only [Registry.Dispatch, h, Command.Execute]

theorem dispatch_J (K : Decls) (rnd : ℚ → ℚ) (ext : External) (repeat_ : Int) (state : State) :
    BuildRegistry.Dispatch K rnd ext (key 'J') repeat_ state =
      PageDownCommand.Execute K repeat_ state := by
  have h : BuildRegistry.entries.lookup (key 'J') = some Command.PageDownCommand := by
    decide
  simp only [Registry.Dispatch, h, Command.Execute]

theorem dispatch_K (K : Decls) (rnd : ℚ → ℚ) (ext : External) (repeat_ : Int) (state : State) :
    BuildRegistry.Dispatch K rnd ext (key 'K') repeat_ state =
      PageUpCommand.Execute K repeat_ state := by
  have h : BuildRegistry.entries.lookup (key 'K') = some Command.PageUpCommand := by
    decide
  simp only [Registry.Dispatch, h, Command.Execute]

theorem slideshow_step_advance (K : Decls) (rnd : ℚ → ℚ) (ext : External) (e_flag : Int)
    (state : State) :
    (main.slideshow_step K rnd BuildRegistry ext (key 'J') e_flag K.NO_REPEAT state).1 =
      if state.Page + 1 = state.NumPages then GoToPageCommand.Execute K 0 K.NO_REPEAT state
      else PageDownCommand.Execute K K.NO_REPEAT state := by
  simp only [main.slideshow_step, slideshow_key_advance]
  split_ifs
  · exact dispatch_g K rnd ext _ state
  · exact dispatch_J K rnd ext _ state

theorem slideshow_step_back (K : Decls) (rnd : ℚ → ℚ) (ext : External) (e_flag : Int)
    (state : State) :
    (main.slideshow_step K rnd BuildRegistry ext (key 'K') e_flag K.NO_REPEAT state).1 =
      if state.Page + 1 = 1 then GoToPageCommand.Execute K INT_MAX K.NO_REPEAT state
      else PageUpCommand.Execute K K.NO_REPEAT state := by
  simp only [main.slideshow_step, slideshow_key_back]
  split_ifs
  · exact dispatch_G K rnd ext _ state
  · exact dispatch_K K rnd ext _ state

theorem buttonHit_decode_of_perm (r1 r2 r3 : Int × GPIO_STATUS) (s16 s20 s21 : GPIO_STATUS)
    (hperm : [r1, r2, r3].Perm [(16, s16), (20, s20), (21, s21)]) :
    buttonHit.decode r1 r2 r3 =
      if s16 = GPIO_STATUS.ON ∧ s20 = GPIO_STATUS.OFF ∧ s21 = GPIO_STATUS.OFF then key 'J'
      else if s16 = GPIO_STATUS.OFF ∧ s20 = GPIO_STATUS.ON ∧ s21 = GPIO_STATUS.OFF then key 'P'
      else if s16 = GPIO_STATUS.OFF ∧ s20 = GPIO_STATUS.OFF ∧ s21 = GPIO_STATUS.ON then key 'K'
      else 0 := by
  have h1 : r1 ∈ [(16, s16), (20, s20), (21, s21)] := hperm.subset (by simp)
  have h2 : r2 ∈ [(16, s16), (20, s20), (21, s21)] := hperm.subset (by simp)
  have h3 : r3 ∈ [(16, s16), (20, s20), (21, s21)] := hperm.subset (by simp)
  have h16 : ((16 : Int), s16) ∈ [r1, r2, r3] := hperm.symm.subset (by simp)
  have h20 : ((20 : Int), s20) ∈ [r1, r2, r3] := hperm.symm.subset (by simp)
  have h21 : ((21 : Int), s21) ∈ [r1, r2, r3] := hperm.symm.subset (by simp)
  simp only [List.mem_cons, List.mem_singleton, List.not_mem_nil, or_false] at h1 h2 h3
  rcases h1 with rfl | rfl | rfl <;> rcases h2 with rfl | rfl | rfl <;>
    rcases h3 with rfl | rfl | rfl <;>
    simp at h16 h20 h21 <;>
    simp [buttonHit.decode]

theorem digitChar_isDigit (k : Nat) (hk : k < 10) :
    (Nat.digitChar k).isDigit = true ∧ ((Nat.digitChar k).toNat : Int) - 48 = k := by
  interval_cases k <;> decide

theorem toDigitsCore_spec (fuel : Nat) :
    ∀ (n : Nat) (ds : List Char), n < fuel →
      ∃ ts : List Char, Nat.toDigitsCore 10 fuel n ds = ts ++ ds ∧ ts ≠ [] ∧
        (∀ c ∈ ts, c.isDigit = true) ∧
        ∀ acc : Int, ts.foldl (fun v c => v * 10 + ((c.toNat : Int) - 48)) acc =
          acc * 10 ^ ts.length + n := by
  induction fuel with
  | zero => intro n ds h; omega
  | succ fuel ih =>
    intro n ds hn
    have hd := digitChar_isDigit (n % 10) (Nat.mod_lt _ (by decide))
    simp only [Nat.toDigitsCore]
    by_cases h0 : n / 10 = 0
    · rw [if_pos h0]
      refine ⟨[Nat.digitChar (n % 10)], rfl, by simp, ?_, ?_⟩
      · intro c hc
        simp only [List.mem_singleton] at hc
        rw [hc]
        exact hd.1
      · intro acc
        simp only [List.foldl_cons, List.foldl_nil, List.length_singleton, pow_one]
        rw [hd.2]
        have : n % 10 = n := by omega
        rw [this]
    · rw [if_neg h0]
      have hlt : n / 10 < fuel := by omega
      obtain ⟨ts, hts, hne, hdig, hval⟩ := ih (n / 10) (Nat.digitChar (n % 10) :: ds) hlt
      refine ⟨ts ++ [Nat.digitChar (n % 10)], ?_, by simp, ?_, ?_⟩
      · rw [hts]
        simp
      · intro c hc
        rcases List.mem_append.mp hc with hc | hc
        · exact hdig c hc
        · simp only [List.mem_singleton] at hc
          rw [hc]
          exact hd.1
      · intro acc
        simp only [List.foldl_append, List.foldl_cons, List.foldl_nil, List.length_append,
          List.length_singleton]
        rw [hval acc, hd.2, pow_succ]
        have hdm : ((n / 10 : Nat) : Int) * 10 + ((n % 10 : Nat) : Int) = n := by
          have := Nat.div_add_mod n 10
          omega
        linear_combination hdm

theorem toDigits_spec (n : Nat) :
    Nat.toDigits 10 n ≠ [] ∧ (∀ c ∈ Nat.toDigits 10 n, c.isDigit = true) ∧
      decimalOfChars (Nat.toDigits 10 n) = n := by
  obtain ⟨ts, hts, hne, hdig, hval⟩ := toDigitsCore_spec (n + 1) n [] (Nat.lt_succ_self n)
  rw [List.append_nil] at hts
  unfold Nat.toDigits decimalOfChars
  rw [hts]
  refine ⟨hne, hdig, ?_⟩
  rw [hval 0]
  simp

theorem isDigit_not_special (c : Char) (h : c.isDigit = true) :
    isspace c = false ∧ c ≠ '-' ∧ c ≠ '+' ∧ c ≠ ',' := by
  have hv : 48 ≤ c.toNat ∧ c.toNat ≤ 57 := by
    simp only [Char.isDigit, Bool.and_eq_true, decide_eq_true_eq] at h
    exact ⟨h.1, h.2⟩
  refine ⟨?_, ?_, ?_, ?_⟩
  · simp only [isspace, Bool.or_eq_false_iff, decide_eq_false_iff_not]
    refine ⟨⟨⟨⟨⟨?_, ?_⟩, ?_⟩, ?_⟩, ?_⟩, ?_⟩
    · intro hc; rw [hc] at hv; revert hv; decide
    all_goals omega
  · intro hc; rw [hc] at hv; revert hv; decide
  · intro hc; rw [hc] at hv; revert hv; decide
  · intro hc; rw [hc] at hv; revert hv; decide

theorem stoi_digits (ts : List Char) (hne : ts ≠ []) (hdig : ∀ c ∈ ts, c.isDigit = true)
    (hv : decimalOfChars ts ≤ INT_MAX) (h0 : 0 ≤ decimalOfChars ts) :
    stoi ts = some (decimalOfChars ts) := by
  obtain ⟨c, t, rfl⟩ := List.exists_cons_of_ne_nil hne
  have hc := isDigit_not_special c (hdig c (List.mem_cons_self _ _))
  have hdrop : (c :: t).dropWhile isspace = c :: t := by
    simp [List.dropWhile, hc.1]
  have hsign : takeSign (c :: t) = (false, c :: t) := by
    unfold takeSign
    split
    · rename_i h; exact absurd (List.cons.inj h).1 hc.2.1
    · rename_i h; exact absurd (List.cons.inj h).1 hc.2.2.1
    · rfl
  have htake : (c :: t).takeWhile Char.isDigit = c :: t :=
    List.takeWhile_eq_self_iff.mpr hdig
  have hmin : INT_MIN ≤ decimalOfChars (c :: t) := by
    unfold INT_MIN
    omega
  simp only [stoi, hdrop, hsign, htake]
  simp [hmin, hv]

theorem findFrom_comma_none (ts : List Char) (h : ∀ c ∈ ts, c ≠ ',') :
    ∀ i : Nat, findFrom [','] ts i = none := by
  induction ts with
  | nil => intro i; simp [findFrom]
  | cons c t ih =>
    intro i
    have hc : c ≠ ',' := h c (List.mem_cons_self _ _)
    have ht : ∀ x ∈ t, x ≠ ',' := fun x hx => h x (List.mem_cons_of_mem _ hx)
    have hp : List.isPrefixOf [','] (c :: t) = false := by
      simp [List.isPrefixOf, Ne.symm hc]
    simp only [findFrom, hp]
    exact ih ht (i + 1)

theorem findFrom_comma_some (ts rest : List Char) (h : ∀ c ∈ ts, c ≠ ',') :
    ∀ i : Nat, findFrom [','] (ts ++ ',' :: rest) i = some (i + ts.length) := by
  induction ts with
  | nil =>
    intro i
    simp [findFrom, List.isPrefixOf]
  | cons c t ih =>
    intro i
    have hc : c ≠ ',' := h c (List.mem_cons_self _ _)
    have ht : ∀ x ∈ t, x ≠ ',' := fun x hx => h x (List.mem_cons_of_mem _ hx)
    have hp : List.isPrefixOf [','] (c :: (t ++ ',' :: rest)) = false := by
      simp [List.isPrefixOf, Ne.symm hc]
    rw [List.cons_append, findFrom, hp]
    simp only [Bool.false_eq_true, if_false]
    rw [ih ht (i + 1)]
    simp only [List.length_cons]
    congr 1
    omega

theorem intercalate_cons_cons (a b : List Char) (l : List (List Char)) :
    List.intercalate [','] (a :: b :: l) = a ++ ',' :: List.intercalate [','] (b :: l) := by
  simp [List.intercalate, List.intersperse]

theorem join_length_ge (l : List Nat) :
    l.length ≤ (List.intercalate [','] (l.map (Nat.toDigits 10))).length + 1 := by
  induction l with
  | nil => simp
  | cons n rest ih =>
    cases rest with
    | nil => simp
    | cons m rest =>
      simp only [List.map_cons] at ih ⊢
      rw [intercalate_cons_cons]
      simp only [List.length_cons, List.length_append] at ih ⊢
      omega

theorem split_loop_join (l : List Nat) :
    l ≠ [] → (∀ n ∈ l, (n : Int) ≤ INT_MAX) →
    ∀ (pre : List Char) (acc : List Int) (fuel : Nat), l.length ≤ fuel →
      split_intervals.loop (pre ++ List.intercalate [','] (l.map (Nat.toDigits 10))) [',']
          fuel pre.length acc =
        some (Outcome.returns (acc ++ l.map (fun n : Nat => (n : Int)))) := by
  induction l with
  | nil => intro h; exact absurd rfl h
  | cons n rest ih =>
    intro _ hfit pre acc fuel hfuel
    obtain ⟨hne, hdig, hval⟩ := toDigits_spec n
    have hn : (n : Int) ≤ INT_MAX := hfit n (List.mem_cons_self _ _)
    have hcomma : ∀ c ∈ Nat.toDigits 10 n, c ≠ ',' :=
      fun c hc => (isDigit_not_special c (hdig c hc)).2.2.2
    have hstoi : stoi (Nat.toDigits 10 n) = some (n : Int) := by
      have := stoi_digits (Nat.toDigits 10 n) hne hdig (by rw [hval]; exact hn)
        (by rw [hval]; omega)
      rw [this, hval]
    obtain ⟨fuel, rfl⟩ : ∃ f, fuel = f + 1 := ⟨fuel - 1, by simp at hfuel; omega⟩
    cases rest with
    | nil =>
      have hfind : string_find (pre ++ Nat.toDigits 10 n) [','] pre.length = none := by
        simp only [string_find, List.length_append, List.drop_left]
        rw [if_neg (by omega)]
        exact findFrom_comma_none _ hcomma _
      simp only [List.map_cons, List.map_nil, List.intercalate, List.intersperse,
        List.flatten, List.append_nil, split_intervals.loop, hfind, List.drop_left, hstoi]
    | cons m rest =>
      have hfit2 : ∀ k ∈ m :: rest, (k : Int) ≤ INT_MAX :=
        fun k hk => hfit k (List.mem_cons_of_mem _ hk)
      have hih := ih (by simp) hfit2 (pre ++ Nat.toDigits 10 n ++ [',']) (acc ++ [(n : Int)])
        fuel (by simp at hfuel ⊢; omega)
      have hJ : List.intercalate [','] ((n :: m :: rest).map (Nat.toDigits 10)) =
          Nat.toDigits 10 n ++
            ',' :: List.intercalate [','] ((m :: rest).map (Nat.toDigits 10)) := by
        simp only [List.map_cons]
        exact intercalate_cons_cons _ _ _
      rw [hJ]
      generalize List.intercalate [','] ((m :: rest).map (Nat.toDigits 10)) = J at hih ⊢
      have hfind : string_find (pre ++ (Nat.toDigits 10 n ++ ',' :: J)) [','] pre.length =
          some (pre.length + (Nat.toDigits 10 n).length) := by
        simp only [string_find, List.length_append, List.drop_left]
        rw [if_neg (by omega)]
        exact findFrom_comma_some _ _ hcomma _
      have e1 : pre ++ (Nat.toDigits 10 n ++ ',' :: J) =
          pre ++ Nat.toDigits 10 n ++ [','] ++ J := by
        simp
      have e2 : pre.length + (Nat.toDigits 10 n).length + 1 =
          (pre ++ Nat.toDigits 10 n ++ [',']).length := by
        simp only [List.length_append, List.length_singleton]
      simp only [split_intervals.loop, hfind, List.drop_left, Nat.add_sub_cancel_left,
        List.take_left, hstoi, List.length_singleton]
      rw [e1, e2, hih]
      simp

theorem getLast?_cons_of_length_pos {α : Type} (a : α) (l : List α) (h : 0 < l.length) :
    (a :: l).getLast? = l.getLast? := by
  cases l with
  | nil => simp at h
  | cons b t => exact List.getLast?_cons_cons

theorem loop_x_spec (sx sy dx dy xa ya : Int) (hdy : 0 ≤ dy) (hle : dy ≤ dx) (hpos : 0 < dx) :
    ∀ (n : Nat) (k s x y E : Int),
      k + n = dx + 1 → 0 ≤ k → 0 ≤ s →
      x = xa + k * sx → y = ya + s * sy →
      E = -dx + 2 * k * dy - 2 * dx * s → -2 * dx ≤ E → E < 0 →
      (line_to.loop_x sx sy dx dy n x y E).length = n ∧
      (∀ p ∈ line_to.loop_x sx sy dx dy n x y E,
        ∃ k2 s2 : Int, 0 ≤ k2 ∧ k2 ≤ dx ∧ 0 ≤ s2 ∧ s2 ≤ dy ∧
          p = (xa + k2 * sx, ya + s2 * sy)) ∧
      (0 < n → (line_to.loop_x sx sy dx dy n x y E).head? = some (x, y)) ∧
      (0 < n → (line_to.loop_x sx sy dx dy n x y E).getLast? =
        some (xa + dx * sx, ya + dy * sy)) := by
  intro n
  induction n with
  | zero =>
    intro k s x y E _ _ _ _ _ _ _ _
    simp [line_to.loop_x]
  | succ n ih =>
    intro k s x y E hk hk0 hs0 hx hy hE hElo hEhi
    have hkdx : k ≤ dx := by push_cast at hk; omega
    have hsdy : s ≤ dy := by
      by_contra hcon
      have h1 : dy + 1 ≤ s := by omega
      have h2 : 0 ≤ dx * (s - (dy + 1)) := mul_nonneg (by omega) (by omega)
      have h3 : 0 ≤ dy * (dx - k) := mul_nonneg hdy (by omega)
      nlinarith
    have hhere : ∃ k2 s2 : Int, 0 ≤ k2 ∧ k2 ≤ dx ∧ 0 ≤ s2 ∧ s2 ≤ dy ∧
        (x, y) = (xa + k2 * sx, ya + s2 * sy) :=
      ⟨k, s, hk0, hkdx, hs0, hsdy, by rw [hx, hy]⟩
    have hlast0 : n = 0 → (x, y) = (xa + dx * sx, ya + dy * sy) := by
      intro hn
      have hkeq : k = dx := by rw [hn] at hk; push_cast at hk; omega
      have hseq : s = dy := by
        have hge : dy ≤ s := by
          by_contra hcon
          have h1 : s + 1 ≤ dy := by omega
          have h2 : 0 ≤ dx * (dy - (s + 1)) := mul_nonneg (by omega) (by omega)
          rw [hkeq] at hE
          nlinarith
        omega
      rw [hx, hy, hkeq, hseq]
    simp only [line_to.loop_x]
    by_cases hstep : E + 2 * dy ≥ 0
    · rw [if_pos hstep]
      obtain ⟨h1, h2, h3, h4⟩ := ih (k + 1) (s + 1) (x + sx) (y + sy) (E + 2 * dy - 2 * dx)
        (by push_cast at hk ⊢; omega) (by omega) (by omega) (by rw [hx]; ring)
        (by rw [hy]; ring) (by rw [hE]; ring) (by omega) (by omega)
      refine ⟨by simp [h1], ?_, fun _ => rfl, fun _ => ?_⟩
      · intro p hp
        rcases List.mem_cons.mp hp with hp | hp
        · rw [hp]; exact hhere
        · exact h2 p hp
      · cases n with
        | zero => simp [line_to.loop_x, hlast0 rfl]
        | succ m =>
          rw [getLast?_cons_of_length_pos _ _ (by rw [h1]; exact Nat.succ_pos m)]
          exact h4 (Nat.succ_pos m)
    · rw [if_neg hstep]
      obtain ⟨h1, h2, h3, h4⟩ := ih (k + 1) s (x + sx) y (E + 2 * dy)
        (by push_cast at hk ⊢; omega) (by omega) hs0 (by rw [hx]; ring)
        hy (by rw [hE]; ring) (by omega) (by omega)
      refine ⟨by simp [h1], ?_, fun _ => rfl, fun _ => ?_⟩
      · intro p hp
        rcases List.mem_cons.mp hp with hp | hp
        · rw [hp]; exact hhere
        · exact h2 p hp
      · cases n with
        | zero => simp [line_to.loop_x, hlast0 rfl]
        | succ m =>
          rw [getLast?_cons_of_length_pos _ _ (by rw [h1]; exact Nat.succ_pos m)]
          exact h4 (Nat.succ_pos m)

theorem loop_y_eq_loop_x (sx sy dx dy : Int) :
    ∀ (n : Nat) (x y E : Int),
      line_to.loop_y sx sy dx dy n x y E =
        (line_to.loop_x sy sx dy dx n y x E).map Prod.swap := by
  intro n
  induction n with
  | zero => intro x y E; rfl
  | succ n ih =>
    intro x y E
    simp only [line_to.loop_y, line_to.loop_x]
    split_ifs <;> simp [ih]

theorem line_to_spec (x0 y0 x1 y1 : Int) :
    ((line_to x0 y0 x1 y1).length : Int) = max |x1 - x0| |y1 - y0| + 1 ∧
    (line_to x0 y0 x1 y1).head? = some (x0, y0) ∧
    (line_to x0 y0 x1 y1).getLast? = some (x1, y1) ∧
    ∀ p ∈ line_to x0 y0 x1 y1,
      min x0 x1 ≤ p.1 ∧ p.1 ≤ max x0 x1 ∧ min y0 y1 ≤ p.2 ∧ p.2 ≤ max y0 y1 := by
  have hdx : (if x1 > x0 then x1 - x0 else x0 - x1) = |x1 - x0| := by
    split_ifs with h
    · rw [abs_of_pos (by omega)]
    · rw [abs_of_nonpos (by omega)]; ring
  have hdy : (if y1 > y0 then y1 - y0 else y0 - y1) = |y1 - y0| := by
    split_ifs with h
    · rw [abs_of_pos (by omega)]
    · rw [abs_of_nonpos (by omega)]; ring
  have hsx : x0 + |x1 - x0| * (if x1 > x0 then (1 : Int) else -1) = x1 := by
    split_ifs with h
    · rw [abs_of_pos (by omega)]; ring
    · rw [abs_of_nonpos (by omega)]; ring
  have hsy : y0 + |y1 - y0| * (if y1 > y0 then (1 : Int) else -1) = y1 := by
    split_ifs with h
    · rw [abs_of_pos (by omega)]; ring
    · rw [abs_of_nonpos (by omega)]; ring
  have hax : 0 ≤ |x1 - x0| := abs_nonneg _
  have hay : 0 ≤ |y1 - y0| := abs_nonneg _
  have hbx : ∀ k : Int, 0 ≤ k → k ≤ |x1 - x0| →
      min x0 x1 ≤ x0 + k * (if x1 > x0 then (1 : Int) else -1) ∧
      x0 + k * (if x1 > x0 then (1 : Int) else -1) ≤ max x0 x1 := by
    intro k hk0 hk1
    split_ifs with h
    · rw [abs_of_pos (by omega)] at hk1
      rw [min_eq_left (by omega), max_eq_right (by omega)]
      constructor <;> omega
    · rw [abs_of_nonpos (by omega)] at hk1
      rw [min_eq_right (by omega), max_eq_left (by omega)]
      constructor <;> omega
  have hby : ∀ k : Int, 0 ≤ k → k ≤ |y1 - y0| →
      min y0 y1 ≤ y0 + k * (if y1 > y0 then (1 : Int) else -1) ∧
      y0 + k * (if y1 > y0 then (1 : Int) else -1) ≤ max y0 y1 := by
    intro k hk0 hk1
    split_ifs with h
    · rw [abs_of_pos (by omega)] at hk1
      rw [min_eq_left (by omega), max_eq_right (by omega)]
      constructor <;> omega
    · rw [abs_of_nonpos (by omega)] at hk1
      rw [min_eq_right (by omega), max_eq_left (by omega)]
      constructor <;> omega
  simp only [line_to, hdx, hdy]
  by_cases hbranch : |x1 - x0| > |y1 - y0|
  · rw [if_pos hbranch]
    have hn : (0 : Int) + ((|x1 - x0| + 1).toNat : Nat) = |x1 - x0| + 1 := by
      rw [Int.toNat_of_nonneg (by omega)]; ring
    obtain ⟨h1, h2, h3, h4⟩ := loop_x_spec (if x1 > x0 then 1 else -1)
      (if y1 > y0 then 1 else -1) |x1 - x0| |y1 - y0| x0 y0 hay (le_of_lt hbranch)
      (by omega) (|x1 - x0| + 1).toNat 0 0 x0 y0 (-|x1 - x0|) hn (le_refl _) (le_refl _)
      (by ring) (by ring) (by ring) (by omega) (by omega)
    have hpos : 0 < (|x1 - x0| + 1).toNat := by omega
    refine ⟨?_, h3 hpos, ?_, ?_⟩
    · rw [h1, Int.toNat_of_nonneg (by omega), max_eq_left (le_of_lt hbranch)]
    · rw [h4 hpos, hsx, hsy]
    · intro p hp
      obtain ⟨k2, s2, hk0, hk1, hs0, hs1, rfl⟩ := h2 p hp
      exact ⟨(hbx k2 hk0 hk1).1, (hbx k2 hk0 hk1).2, (hby s2 hs0 hs1).1, (hby s2 hs0 hs1).2⟩
  · rw [if_neg hbranch]
    have hle : |x1 - x0| ≤ |y1 - y0| := by omega
    rw [loop_y_eq_loop_x]
    by_cases hzero : |y1 - y0| = 0
    · have hxz : |x1 - x0| = 0 := by omega
      have hxe : x1 = x0 := by
        have := abs_eq_zero.mp hxz
        omega
      have hye : y1 = y0 := by
        have := abs_eq_zero.mp hzero
        omega
      subst hxe hye
      simp [line_to.loop_x]
    · have hn : (0 : Int) + ((|y1 - y0| + 1).toNat : Nat) = |y1 - y0| + 1 := by
        rw [Int.toNat_of_nonneg (by omega)]; ring
      obtain ⟨h1, h2, h3, h4⟩ := loop_x_spec (if y1 > y0 then 1 else -1)
        (if x1 > x0 then 1 else -1) |y1 - y0| |x1 - x0| y0 x0 hax hle
        (by omega) (|y1 - y0| + 1).toNat 0 0 y0 x0 (-|y1 - y0|) hn (le_refl _) (le_refl _)
        (by ring) (by ring) (by ring) (by omega) (by omega)
      have hpos : 0 < (|y1 - y0| + 1).toNat := by omega
      refine ⟨?_, ?_, ?_, ?_⟩
      · rw [List.length_map, h1, Int.toNat_of_nonneg (by omega), max_eq_right hle]
      · rw [List.head?_map, h3 hpos]
        rfl
      · rw [List.getLast?_map, h4 hpos, hsx, hsy]
        rfl
      · intro p hp
        obtain ⟨q, hq, rfl⟩ := List.mem_map.mp hp
        obtain ⟨k2, s2, hk0, hk1, hs0, hs1, rfl⟩ := h2 q hq
        exact ⟨(hbx s2 hs0 hs1).1, (hbx s2 hs0 hs1).2, (hby k2 hk0 hk1).1,
          (hby k2 hk0 hk1).2⟩

theorem ZoomOutCommand_default_not_above (K : Decls) (state : State)
    (hlo : K.MIN_ZOOM ≤ state.ActualZoom) (hpos : 0 ≤ state.ActualZoom) :
    (ZoomOutCommand.Execute K id K.NO_REPEAT state).Zoom ≤ state.ActualZoom ∧
    (ZoomOutCommand.Execute K id 1 state).Zoom ≤ state.ActualZoom := by
  have h1 : RepeatOrDefault K K.NO_REPEAT 1 = 1 := by simp [RepeatOrDefault]
  have h2 : RepeatOrDefault K 1 1 = 1 := by simp [RepeatOrDefault]
  have hreq : state.ActualZoom * ((1 : Int) : ℚ) / (6 / 5) ≤ state.ActualZoom := by
    rw [Int.cast_one, mul_one, div_le_iff₀ (by norm_num)]
    linarith
  constructor
  · simp only [ZoomOutCommand.Execute, ZoomCommand.SetZoom, ZoomCommand.ZOOM_COEFFICIENT, id,
      h1]
    exact max_le hlo (le_trans (min_le_right _ _) hreq)
  · simp only [ZoomOutCommand.Execute, ZoomCommand.SetZoom, ZoomCommand.ZOOM_COEFFICIENT, id,
      h2]
    exact max_le hlo (le_trans (min_le_right _ _) hreq)

theorem ZoomOutCommand_repeat_zooms_in (K : Decls) (state : State) (repeat_ : Int)
    (hn : 2 ≤ repeat_) (hrep : repeat_ ≠ K.NO_REPEAT) (hpos : 0 < state.ActualZoom)
    (hhi : state.ActualZoom < K.MAX_ZOOM) :
    state.ActualZoom < (ZoomOutCommand.Execute K id repeat_ state).Zoom := by
  have h1 : RepeatOrDefault K repeat_ 1 = repeat_ := by simp [RepeatOrDefault, hrep]
  have hn' : (2 : ℚ) ≤ (repeat_ : ℚ) := by exact_mod_cast hn
  have hreq : state.ActualZoom < state.ActualZoom * (repeat_ : ℚ) / (6 / 5) := by
    rw [lt_div_iff₀ (by norm_num)]
    nlinarith
  simp only [ZoomOutCommand.Execute, ZoomCommand.SetZoom, ZoomCommand.ZOOM_COEFFICIENT, id,
    h1]
  exact lt_of_lt_of_le (lt_min hhi hreq) (le_max_right _ _)

/-! ## The claims -/

/-- C2: for every state, every float rounding and every requested zoom, the
`Zoom` that `ZoomCommand::SetZoom` stores lies in `[MIN_ZOOM, MAX_ZOOM]`; in
particular for every repeat given to `SetZoomCommand` (which requests
`repeat/100`, and 100% when the repeat is absent).  The two bounds come from
`viewer.hpp` and are assumed to be ordered. -/
theorem C2_set_zoom_within_bounds (K : Decls) (rnd : ℚ → ℚ) (state : State)
    (hK : K.MIN_ZOOM ≤ K.MAX_ZOOM) :
    (∀ zoom : ℚ, K.MIN_ZOOM ≤ (ZoomCommand.SetZoom K rnd zoom state).Zoom ∧
      (ZoomCommand.SetZoom K rnd zoom state).Zoom ≤ K.MAX_ZOOM) ∧
    (∀ repeat_ : Int, K.MIN_ZOOM ≤ (SetZoomCommand.Execute K rnd repeat_ state).Zoom ∧
      (SetZoomCommand.Execute K rnd repeat_ state).Zoom ≤ K.MAX_ZOOM) := by
  have h : ∀ zoom : ℚ, K.MIN_ZOOM ≤ (ZoomCommand.SetZoom K rnd zoom state).Zoom ∧
      (ZoomCommand.SetZoom K rnd zoom state).Zoom ≤ K.MAX_ZOOM := by
    intro zoom
    simp only [ZoomCommand.SetZoom]
    exact ⟨le_max_left _ _, max_le hK (min_le_left _ _)⟩
  exact ⟨h, fun repeat_ => h _⟩

/-- C2 on the sample state: the repeat 5000 asks for 5000% and `MAX_ZOOM` is
stored. -/
theorem C2_set_zoom_within_bounds_witness :
    sampleDecls.MIN_ZOOM ≤ sampleDecls.MAX_ZOOM ∧
      sampleDecls.MIN_ZOOM ≤ (SetZoomCommand.Execute sampleDecls f32 5000 sampleState).Zoom ∧
      (SetZoomCommand.Execute sampleDecls f32 5000 sampleState).Zoom ≤ sampleDecls.MAX_ZOOM :=
  ⟨by with_unfolding_all decide,
    (C2_set_zoom_within_bounds sampleDecls f32 sampleState
      (by with_unfolding_all decide)).2 5000⟩

/-- C3: the centering invariant of `ZoomCommand::SetZoom` in exact arithmetic
(`rnd = id`).  With `z'` the requested zoom clamped to `[MIN_ZOOM, MAX_ZOOM]`,
`q = z'/ActualZoom` and `c_x = (XOffset + ScreenWidth/2)/PageWidth` taken before
the call, the new `XOffset + ScreenWidth/2` differs from `(PageWidth*q)*c_x` by
less than one pixel, and likewise on the Y axis; `ScreenWidth/2` and
`ScreenHeight/2` are the integer divisions of the code. -/
theorem C3_set_zoom_centering (K : Decls) (zoom : ℚ) (state : State)
    (_hW : 0 < state.PageWidth) (_hH : 0 < state.PageHeight)
    (_hZ : 0 < state.ActualZoom) :
    |(((ZoomCommand.SetZoom K id zoom state).XOffset + Int.tdiv state.ScreenWidth 2 : Int) : ℚ) -
        ((state.PageWidth : ℚ) * (max K.MIN_ZOOM (min K.MAX_ZOOM zoom) / state.ActualZoom)) *
          (((state.XOffset + Int.tdiv state.ScreenWidth 2 : Int) : ℚ) / (state.PageWidth : ℚ))|
      < 1 ∧
    |(((ZoomCommand.SetZoom K id zoom state).YOffset + Int.tdiv state.ScreenHeight 2 : Int) : ℚ) -
        ((state.PageHeight : ℚ) * (max K.MIN_ZOOM (min K.MAX_ZOOM zoom) / state.ActualZoom)) *
          (((state.YOffset + Int.tdiv state.ScreenHeight 2 : Int) : ℚ) / (state.PageHeight : ℚ))|
      < 1 := by
  simp only [ZoomCommand.SetZoom, id, sub_add_cancel]
  exact ⟨truncToInt_abs_sub_lt_one _, truncToInt_abs_sub_lt_one _⟩

/-- C3 on the sample state, zooming to 200%. -/
theorem C3_set_zoom_centering_witness :
    (0 < sampleState.PageWidth ∧ 0 < sampleState.PageHeight ∧ 0 < sampleState.ActualZoom) ∧
    |(((ZoomCommand.SetZoom sampleDecls id 2 sampleState).XOffset +
          Int.tdiv sampleState.ScreenWidth 2 : Int) : ℚ) -
        ((sampleState.PageWidth : ℚ) *
          (max sampleDecls.MIN_ZOOM (min sampleDecls.MAX_ZOOM 2) / sampleState.ActualZoom)) *
          (((sampleState.XOffset + Int.tdiv sampleState.ScreenWidth 2 : Int) : ℚ) /
            (sampleState.PageWidth : ℚ))| < 1 :=
  ⟨by with_unfolding_all decide,
    (C3_set_zoom_centering sampleDecls 2 sampleState (by decide) (by decide)
      (by with_unfolding_all decide)).1⟩

set_option maxRecDepth 100000 in
/-- C4, as stated, fails in the binary32 arithmetic of the code: the sample
state scrolled to `YOffset = 8` has `ActualZoom = 1` within the zoom bounds
and non-zero page extents, and `SetZoom(1)` leaves `YOffset = 7`
(`1200 * (392/1200)` rounds below 392 and is truncated to 391). -/
theorem C4_binary32_shifts_offset :
    (sampleDecls.MIN_ZOOM ≤ 1 ∧ (1 : ℚ) ≤ sampleDecls.MAX_ZOOM) ∧
      (sampleScrolledState.PageWidth ≠ 0 ∧ sampleScrolledState.PageHeight ≠ 0) ∧
      sampleScrolledState.ActualZoom = 1 ∧
      sampleScrolledState.YOffset = 8 ∧
      (ZoomCommand.SetZoom sampleDecls f32 1 sampleScrolledState).YOffset = 7 := by
  with_unfolding_all decide

/-- C4, amended: in exact arithmetic (`rnd = id`), for a positive `MIN_ZOOM`,
every ratio `r` in `[MIN_ZOOM, MAX_ZOOM]` and every state with non-zero
`PageWidth` and `PageHeight` whose `ActualZoom` equals `r`, `SetZoom(r)` leaves
`XOffset` and `YOffset` unchanged. -/
theorem C4_set_zoom_idempotent_exact (K : Decls) (r : ℚ) (state : State)
    (hmin : 0 < K.MIN_ZOOM) (hlo : K.MIN_ZOOM ≤ r) (hhi : r ≤ K.MAX_ZOOM)
    (hW : state.PageWidth ≠ 0) (hH : state.PageHeight ≠ 0) (hA : state.ActualZoom = r) :
    (ZoomCommand.SetZoom K id r state).XOffset = state.XOffset ∧
    (ZoomCommand.SetZoom K id r state).YOffset = state.YOffset := by
  have hr : r ≠ 0 := ne_of_gt (lt_of_lt_of_le hmin hlo)
  have hclamp : max K.MIN_ZOOM (min K.MAX_ZOOM r) = r := by
    rw [min_eq_right hhi, max_eq_right hlo]
  have hW' : (state.PageWidth : ℚ) ≠ 0 := by exact_mod_cast hW
  have hH' : (state.PageHeight : ℚ) ≠ 0 := by exact_mod_cast hH
  simp only [ZoomCommand.SetZoom, id, hclamp, hA, div_self hr, mul_one]
  rw [mul_div_cancel₀ _ hW', mul_div_cancel₀ _ hH', truncToInt_intCast, truncToInt_intCast]
  constructor <;> omega

/-- C4, amended, on the scrolled sample state. -/
theorem C4_set_zoom_idempotent_exact_witness :
    (0 < sampleDecls.MIN_ZOOM ∧ sampleDecls.MIN_ZOOM ≤ 1 ∧ (1 : ℚ) ≤ sampleDecls.MAX_ZOOM) ∧
    (sampleScrolledState.PageWidth ≠ 0 ∧ sampleScrolledState.PageHeight ≠ 0 ∧
      sampleScrolledState.ActualZoom = 1) ∧
    (ZoomCommand.SetZoom sampleDecls id 1 sampleScrolledState).YOffset =
      sampleScrolledState.YOffset :=
  ⟨by with_unfolding_all decide, by with_unfolding_all decide,
    (C4_set_zoom_idempotent_exact sampleDecls 1 sampleScrolledState
      (by with_unfolding_all decide) (by with_unfolding_all decide)
      (by with_unfolding_all decide) (by decide) (by decide) rfl).2⟩

/-- C5: register round trip.  `SaveStateCommand` with a repeat, then any
sequence of commands and renders that does not save to the same register again,
then `RestoreStateCommand` with the same repeat, leaves every `Viewer::State`
field of the program state equal to the state the Viewer held at the save.
The repeat, or 0 when it is absent, is the register. -/
theorem C5_register_round_trip (K : Decls) (rnd : ℚ → ℚ) (repeat_ : Int) (state : State)
    (changes : List Change)
    (h : ∀ ch ∈ changes, ch.savesRegister K (RepeatOrDefault K repeat_ 0) = false) :
    (RestoreStateCommand.Execute K repeat_
      (applyChanges K rnd changes (SaveStateCommand.Execute K repeat_ state))).toViewerState =
      state.ViewerInst := by
  have hl := applyChanges_lookup K rnd (RepeatOrDefault K repeat_ 0) changes
    (SaveStateCommand.Execute K repeat_ state) h
  have hs : (SaveStateCommand.Execute K repeat_ state)._saved_states.lookup
      (RepeatOrDefault K repeat_ 0) = some state.ViewerInst := by
    simp only [SaveStateCommand.Execute]
    exact lookup_store_self _ _ _
  rw [hs] at hl
  simp only [RestoreStateCommand.Execute, hl, Viewer.GetState, Viewer.SetState]

/-- C5 on the sample state: save to register 0, page up and render, restore. -/
theorem C5_register_round_trip_witness :
    (∀ ch ∈ sampleChanges,
      ch.savesRegister sampleDecls
        (RepeatOrDefault sampleDecls sampleDecls.NO_REPEAT 0) = false) ∧
    (RestoreStateCommand.Execute sampleDecls sampleDecls.NO_REPEAT
      (applyChanges sampleDecls id sampleChanges
        (SaveStateCommand.Execute sampleDecls sampleDecls.NO_REPEAT
          sampleState))).toViewerState = sampleState.ViewerInst :=
  ⟨by decide,
    C5_register_round_trip sampleDecls id sampleDecls.NO_REPEAT sampleState sampleChanges
      (by decide)⟩

/-- C6, as stated, fails: the repeat is a 32-bit `int`.  Ten keys `9` followed
by `j` have the decimal value 9999999999, and the loop ends with the repeat
1410065407. -/
theorem C6_ten_digits_overflow :
    (∀ d ∈ [57, 57, 57, 57, 57, 57, 57, 57, 57, 57], isdigit d = true) ∧
      isdigit 106 = false ∧
      decimalValue [57, 57, 57, 57, 57, 57, 57, 57, 57, 57] = 9999999999 ∧
      main.grab_input sampleDecls sampleDecls.NO_REPEAT
        ([57, 57, 57, 57, 57, 57, 57, 57, 57, 57] ++ 106 :: []) =
        some (106, 1410065407, []) := by
  decide

/-- C6, amended: in the manual regime, starting from an absent repeat
(`NO_REPEAT`, a negative constant), for every sequence of digit keys whose
decimal value is at most `INT_MAX`, followed by a non-digit key other than
`KEY_RESIZE`, the iteration passes to `Registry::Dispatch` that key and the
decimal value of the digits, or `NO_REPEAT` when no digit was typed. -/
theorem C6_repeat_accumulation (K : Decls) (rnd : ℚ → ℚ) (registry : Registry) (it : Iteration) (l : Loop)
    (digits : List Int) (c : Int) (keys : List Int)
    (hK : K.NO_REPEAT < 0) (hd : ∀ d ∈ digits, isdigit d = true) (hc : isdigit c = false)
    (hv : decimalValue digits ≤ INT_MAX) (hres : c ≠ KEY_RESIZE)
    (hrep : l.repeat_ = K.NO_REPEAT) (hkeys : l.keys = digits ++ c :: keys)
    (hman : (main.check_intervals (main.render it.render l.state)).Interval = 0 ∧
      (main.check_intervals (main.render it.render l.state)).Intervals.length = 0) :
    main.loop_body K rnd registry it l =
      some { state := registry.Dispatch K rnd it.ext c
                (if digits = [] then K.NO_REPEAT else decimalValue digits)
                (main.check_intervals (main.render it.render l.state)),
             repeat_ := K.NO_REPEAT, e_flag := l.e_flag, keys := keys } := by
  have hg : main.grab_input K K.NO_REPEAT (digits ++ c :: keys) =
      some (c, if digits = [] then K.NO_REPEAT else decimalValue digits, keys) := by
    by_cases hnil : digits = []
    · subst hnil
      simp [main.grab_input, hc]
    · rw [if_neg hnil]
      exact grab_input_from_no_repeat K hK c hc keys digits hd hnil hv
  simp only [main.loop_body, hman, and_self, if_true, hrep, hkeys, hg, if_neg hres]

/-- C6, amended, on the keys `1`, `2`, `j`: the repeat dispatched is 12. -/
theorem C6_repeat_accumulation_witness :
    decimalValue [49, 50] = 12 ∧
    main.loop_body sampleDecls id BuildRegistry sampleIteration
        { sampleLoop with keys := [49, 50] ++ 106 :: [] } =
      some { state := BuildRegistry.Dispatch sampleDecls id sampleIteration.ext 106
                (if [49, 50] = ([] : List Int) then sampleDecls.NO_REPEAT
                  else decimalValue [49, 50])
                (main.check_intervals (main.render sampleIteration.render sampleLoop.state)),
             repeat_ := sampleDecls.NO_REPEAT, e_flag := sampleLoop.e_flag, keys := [] } :=
  ⟨by decide,
    C6_repeat_accumulation sampleDecls id BuildRegistry sampleIteration
      { sampleLoop with keys := [49, 50] ++ 106 :: [] } [49, 50] 106 []
      (by decide) (by decide) (by decide) (by decide) (by decide) rfl rfl (by decide)⟩

/-- C7, as stated, fails: after the keys `1`, `2` and `KEY_RESIZE` the
iteration ends with the repeat 12, not `NO_REPEAT`, and the next iteration,
reading `3` and `j`, moves down as `j` does with the repeat 123. -/
theorem C7_resize_leaves_repeat_pending :
    (main.loop_body sampleDecls id BuildRegistry sampleIteration sampleLoop).map
        (fun l => (l.repeat_, l.keys)) = some (12, [51, 106]) ∧
      (12 : Int) ≠ sampleDecls.NO_REPEAT ∧
      ((main.loop_body sampleDecls id BuildRegistry sampleIteration sampleLoop).bind
        (main.loop_body sampleDecls id BuildRegistry sampleIteration)).map
        (fun l => l.state.YOffset) =
        some (BuildRegistry.Dispatch sampleDecls id sampleExternal (key 'j') 123
          sampleState).YOffset := by
  decide

/-- C7, amended: a resize notification does not end repeat accumulation.  In
the manual regime, starting from an absent repeat (`NO_REPEAT`, a negative
constant), an iteration that reads a non-empty digit sequence of decimal value
at most `INT_MAX` and then `KEY_RESIZE` dispatches nothing and ends with that
decimal value as the repeat; the input loop resumed from there forms the repeat
from the digits typed before and after the resize. -/
theorem C7_resize_keeps_repeat (K : Decls) (rnd : ℚ → ℚ) (registry : Registry)
    (it : Iteration) (l : Loop) (digits keys : List Int)
    (hK : K.NO_REPEAT < 0) (hd : ∀ d ∈ digits, isdigit d = true) (hne : digits ≠ [])
    (hv : decimalValue digits ≤ INT_MAX)
    (hrep : l.repeat_ = K.NO_REPEAT) (hkeys : l.keys = digits ++ KEY_RESIZE :: keys)
    (hman : (main.check_intervals (main.render it.render l.state)).Interval = 0 ∧
      (main.check_intervals (main.render it.render l.state)).Intervals.length = 0) :
    main.loop_body K rnd registry it l =
      some { state := main.check_intervals (main.render it.render l.state),
             repeat_ := decimalValue digits, e_flag := l.e_flag, keys := keys } ∧
    decimalValue digits ≠ K.NO_REPEAT ∧
    ∀ (digits2 : List Int) (c : Int) (keys2 : List Int),
      (∀ d ∈ digits2, isdigit d = true) → isdigit c = false →
      decimalValue (digits ++ digits2) ≤ INT_MAX →
      main.grab_input K (decimalValue digits) (digits2 ++ c :: keys2) =
        some (c, decimalValue (digits ++ digits2), keys2) := by
  have hres : isdigit KEY_RESIZE = false := by decide
  have hg := grab_input_from_no_repeat K hK KEY_RESIZE hres keys digits hd hne hv
  have h0 := decimalValue_nonneg digits hd
  refine ⟨?_, by omega, ?_⟩
  · simp only [main.loop_body, hman, and_self, if_true, hrep, hkeys, hg]
  · intro digits2 c keys2 hd2 hc hv2
    have happ : decimalValue (digits ++ digits2) =
        digits2.foldl (fun v c => v * 10 + (c - 48)) (decimalValue digits) := by
      simp [decimalValue, List.foldl_append]
    rw [happ] at hv2 ⊢
    exact grab_input_digits K hK c hc keys2 digits2 _ hd2 h0 hv2

/-- C7, amended, on the sample loop: after `1`, `2`, `KEY_RESIZE` the repeat is
the decimal value of `12`. -/
theorem C7_resize_keeps_repeat_witness :
    main.loop_body sampleDecls id BuildRegistry sampleIteration sampleLoop =
      some { state := main.check_intervals (main.render sampleIteration.render sampleLoop.state),
             repeat_ := decimalValue [49, 50], e_flag := sampleLoop.e_flag,
             keys := [51, 106] } :=
  (C7_resize_keeps_repeat sampleDecls id BuildRegistry sampleIteration sampleLoop [49, 50]
    [51, 106] (by decide) (by decide) (by decide) (by decide) rfl rfl (by decide)).1

/-- C8: for every state with `NumPages ≥ 1` and every repeat (the command's default
page when it is absent), `GoToPageCommand` sets `Page` to
`clamp(n, 1, NumPages) - 1`; when that target differs from the current page
both offsets become 0, and when it equals the current page the whole state is
unchanged. -/
theorem C8_go_to_page (K : Decls) (default_page repeat_ : Int) (state : State)
    (hN : 1 ≤ state.NumPages) :
    (GoToPageCommand.Execute K default_page repeat_ state).Page =
        specClamp (RepeatOrDefault K repeat_ default_page) 1 state.NumPages - 1 ∧
      (specClamp (RepeatOrDefault K repeat_ default_page) 1 state.NumPages - 1 ≠ state.Page →
        (GoToPageCommand.Execute K default_page repeat_ state).XOffset = 0 ∧
        (GoToPageCommand.Execute K default_page repeat_ state).YOffset = 0) ∧
      (specClamp (RepeatOrDefault K repeat_ default_page) 1 state.NumPages - 1 = state.Page →
        GoToPageCommand.Execute K default_page repeat_ state = state) := by
  have hc : max 1 (min state.NumPages (RepeatOrDefault K repeat_ default_page)) =
      specClamp (RepeatOrDefault K repeat_ default_page) 1 state.NumPages := by
    unfold specClamp
    split_ifs <;> omega
  unfold GoToPageCommand.Execute
  dsimp only
  rw [hc]
  by_cases h : specClamp (RepeatOrDefault K repeat_ default_page) 1 state.NumPages - 1 =
      state.Page
  · rw [if_neg (not_not.mpr h)]
    exact ⟨h.symm, fun h' => absurd h h', fun _ => rfl⟩
  · rw [if_pos h]
    exact ⟨rfl, fun _ => ⟨rfl, rfl⟩, fun h' => absurd h' h⟩

/-- C8 on the sample state: `G` with an absent repeat stays on the last page and
changes nothing. -/
theorem C8_go_to_page_witness :
    1 ≤ sampleState.NumPages ∧
    (specClamp (RepeatOrDefault sampleDecls sampleDecls.NO_REPEAT INT_MAX) 1
        sampleState.NumPages - 1 = sampleState.Page →
      GoToPageCommand.Execute sampleDecls INT_MAX sampleDecls.NO_REPEAT sampleState =
        sampleState) :=
  ⟨by decide,
    (C8_go_to_page sampleDecls INT_MAX sampleDecls.NO_REPEAT sampleState (by decide)).2.2⟩

/-- C9: slideshow boundary wrap.  For a state with `NumPages ≥ 1` (an `int`)
and `0 ≤ Page < NumPages`, in the slideshow branch, where the repeat is
`NO_REPEAT`: on the last page `J` is dispatched as `g` and `Page` becomes 0; on
the first page `K` is dispatched as `G` and `Page` becomes `NumPages - 1`; away
from those boundaries `J` and `K` are dispatched as they are and `Page` moves
by `+1` and `-1`; in every case the new `Page` is in `[0, NumPages)`. -/
theorem C9_slideshow_wrap (K : Decls) (rnd : ℚ → ℚ) (ext : External) (e_flag : Int)
    (state : State) (hN : 1 ≤ state.NumPages) (hmax : state.NumPages ≤ INT_MAX)
    (h0 : 0 ≤ state.Page) (h1 : state.Page < state.NumPages) :
    (state.Page = state.NumPages - 1 →
      (main.slideshow_key (key 'J') e_flag state).1 = key 'g' ∧
      (main.slideshow_step K rnd BuildRegistry ext (key 'J') e_flag K.NO_REPEAT state).1.Page
        = 0) ∧
    (state.Page = 0 →
      (main.slideshow_key (key 'K') e_flag state).1 = key 'G' ∧
      (main.slideshow_step K rnd BuildRegistry ext (key 'K') e_flag K.NO_REPEAT state).1.Page
        = state.NumPages - 1) ∧
    (state.Page ≠ state.NumPages - 1 →
      (main.slideshow_key (key 'J') e_flag state).1 = key 'J' ∧
      (main.slideshow_step K rnd BuildRegistry ext (key 'J') e_flag K.NO_REPEAT state).1.Page
        = state.Page + 1) ∧
    (state.Page ≠ 0 →
      (main.slideshow_key (key 'K') e_flag state).1 = key 'K' ∧
      (main.slideshow_step K rnd BuildRegistry ext (key 'K') e_flag K.NO_REPEAT state).1.Page
        = state.Page - 1) ∧
    (∀ wait_result : Int, wait_result = key 'J' ∨ wait_result = key 'K' →
      (main.slideshow_step K rnd BuildRegistry ext wait_result e_flag K.NO_REPEAT
        state).1.NumPages = state.NumPages ∧
      0 ≤ (main.slideshow_step K rnd BuildRegistry ext wait_result e_flag K.NO_REPEAT
        state).1.Page ∧
      (main.slideshow_step K rnd BuildRegistry ext wait_result e_flag K.NO_REPEAT
        state).1.Page < state.NumPages) := by
  have hINT : INT_MAX = 2147483647 := rfl
  have hfirst : state.Page + 1 = state.NumPages →
      (GoToPageCommand.Execute K 0 K.NO_REPEAT state).NumPages = state.NumPages ∧
      (GoToPageCommand.Execute K 0 K.NO_REPEAT state).Page = 0 := by
    intro _
    simp only [GoToPageCommand.Execute, RepeatOrDefault, if_true]
    split_ifs <;> simp
    omega
  have hlast : state.Page + 1 = 1 →
      (GoToPageCommand.Execute K INT_MAX K.NO_REPEAT state).NumPages = state.NumPages ∧
      (GoToPageCommand.Execute K INT_MAX K.NO_REPEAT state).Page = state.NumPages - 1 := by
    intro _
    simp only [GoToPageCommand.Execute, RepeatOrDefault, if_true]
    split_ifs <;> simp <;> omega
  have hdown : (PageDownCommand.Execute K K.NO_REPEAT state).NumPages = state.NumPages ∧
      (PageDownCommand.Execute K K.NO_REPEAT state).Page = state.Page + 1 := by
    simp [PageDownCommand.Execute, RepeatOrDefault]
  have hup : (PageUpCommand.Execute K K.NO_REPEAT state).NumPages = state.NumPages ∧
      (PageUpCommand.Execute K K.NO_REPEAT state).Page = state.Page - 1 := by
    simp [PageUpCommand.Execute, RepeatOrDefault]
  refine ⟨?_, ?_, ?_, ?_, ?_⟩
  · intro hp
    have hp' : state.Page + 1 = state.NumPages := by omega
    rw [slideshow_step_advance, slideshow_key_advance, if_pos hp', if_pos hp']
    exact ⟨rfl, (hfirst hp').2⟩
  · intro hp
    have hp' : state.Page + 1 = 1 := by omega
    rw [slideshow_step_back, slideshow_key_back, if_pos hp', if_pos hp']
    exact ⟨rfl, (hlast hp').2⟩
  · intro hp
    have hp' : ¬ state.Page + 1 = state.NumPages := by omega
    rw [slideshow_step_advance, slideshow_key_advance, if_neg hp', if_neg hp']
    exact ⟨rfl, hdown.2⟩
  · intro hp
    have hp' : ¬ state.Page + 1 = 1 := by omega
    rw [slideshow_step_back, slideshow_key_back, if_neg hp', if_neg hp']
    exact ⟨rfl, hup.2⟩
  · intro w hw
    rcases hw with rfl | rfl
    · rw [slideshow_step_advance]
      by_cases hp : state.Page + 1 = state.NumPages
      · rw [if_pos hp, (hfirst hp).1, (hfirst hp).2]
        omega
      · rw [if_neg hp, hdown.1, hdown.2]
        omega
    · rw [slideshow_step_back]
      by_cases hp : state.Page + 1 = 1
      · rw [if_pos hp, (hlast hp).1, (hlast hp).2]
        omega
      · rw [if_neg hp, hup.1, hup.2]
        omega

/-- C9 on the sample state, the last of three pages: `J` wraps to page 0. -/
theorem C9_slideshow_wrap_witness :
    (1 ≤ sampleState.NumPages ∧ sampleState.NumPages ≤ INT_MAX ∧ 0 ≤ sampleState.Page ∧
      sampleState.Page < sampleState.NumPages ∧
      sampleState.Page = sampleState.NumPages - 1) ∧
    (main.slideshow_key (key 'J') 0 sampleState).1 = key 'g' ∧
    (main.slideshow_step sampleDecls id BuildRegistry sampleExternal (key 'J') 0
      sampleDecls.NO_REPEAT sampleState).1.Page = 0 :=
  ⟨by decide,
    (C9_slideshow_wrap sampleDecls id sampleExternal 0 sampleState (by decide) (by decide)
      (by decide) (by decide)).1 (by decide)⟩

/-- C10: for every state with `Interval = 0`, an `Intervals` table at least
`NumPages` long and `0 ≤ Page < NumPages`, the lookup of `get_current_interval`
is in bounds and the function returns `Intervals[Page]`. -/
theorem C10_interval_of_page (state : State) (hI : state.Interval = 0)
    (hlen : state.NumPages ≤ state.Intervals.length) (h0 : 0 ≤ state.Page)
    (h1 : state.Page < state.NumPages) :
    ∃ h : state.Page.toNat < state.Intervals.length,
      get_current_interval state = some (state.Intervals.get ⟨state.Page.toNat, h⟩) := by
  have hb : state.Page.toNat < state.Intervals.length := by omega
  refine ⟨hb, ?_⟩
  have hN : to_size_t state.NumPages ≤ state.Intervals.length := by
    unfold to_size_t
    split_ifs <;> omega
  have hP : to_size_t state.Page = state.Page.toNat := by
    unfold to_size_t
    rw [if_pos h0]
  simp only [get_current_interval, hI, ne_eq, not_true_eq_false, if_false, ge_iff_le, hN,
    if_true, hP]
  exact List.getElem?_eq_getElem hb

/-- C10 on `Interval = 0`, `Intervals = [5, 7, 9]`, `NumPages = 3`, `Page = 1`:
the interval is 7. -/
theorem C10_interval_of_page_witness :
    get_current_interval sampleIntervalState = some 7 := by
  obtain ⟨h, e⟩ := C10_interval_of_page sampleIntervalState (by decide) (by decide)
    (by decide) (by decide)
  rw [e]
  rfl

/-- C11, as stated, fails: with `Interval = 0`, `Intervals = [5, 7]`,
`NumPages = 3` and `Page = 1` the table covers the page (its entry is 7) but
is shorter than `NumPages`, and `get_current_interval` returns 10. -/
theorem C11_short_table_gives_default :
    sampleShortTableState.Interval = 0 ∧
      0 ≤ sampleShortTableState.Page ∧
      sampleShortTableState.Page < sampleShortTableState.Intervals.length ∧
      sampleShortTableState.Intervals[1]? = some 7 ∧
      get_current_interval sampleShortTableState = some 10 := by
  decide

/-- C11, amended: for every state with `Interval = 0` and
`0 ≤ Page < length of Intervals`, `get_current_interval` returns
`Intervals[Page]` when the table is at least `NumPages` long
(`0 ≤ NumPages ≤ length`), and 10 when the table is shorter than `NumPages`. -/
theorem C11_interval_needs_full_table (state : State) (hI : state.Interval = 0)
    (h0 : 0 ≤ state.Page) (h1 : state.Page < state.Intervals.length) :
    (0 ≤ state.NumPages → state.NumPages ≤ state.Intervals.length →
      ∃ h : state.Page.toNat < state.Intervals.length,
        get_current_interval state = some (state.Intervals.get ⟨state.Page.toNat, h⟩)) ∧
    ((state.Intervals.length : Int) < state.NumPages →
      get_current_interval state = some 10) := by
  constructor
  · intro hN hlen
    have hb : state.Page.toNat < state.Intervals.length := by omega
    refine ⟨hb, ?_⟩
    have hN' : to_size_t state.NumPages ≤ state.Intervals.length := by
      unfold to_size_t
      rw [if_pos hN]
      omega
    have hP : to_size_t state.Page = state.Page.toNat := by
      unfold to_size_t
      rw [if_pos h0]
    simp only [get_current_interval, hI, ne_eq, not_true_eq_false, if_false, ge_iff_le, hN',
      if_true, hP]
    exact List.getElem?_eq_getElem hb
  · intro hlt
    have hN' : ¬ to_size_t state.NumPages ≤ state.Intervals.length := by
      unfold to_size_t
      rw [if_pos (by omega)]
      omega
    simp only [get_current_interval, hI, ne_eq, not_true_eq_false, if_false, ge_iff_le, hN']

/-- C11, amended, on the short table of the counterexample: the result is 10. -/
theorem C11_interval_needs_full_table_witness :
    (sampleShortTableState.Interval = 0 ∧ 0 ≤ sampleShortTableState.Page ∧
      sampleShortTableState.Page < sampleShortTableState.Intervals.length ∧
      (sampleShortTableState.Intervals.length : Int) < sampleShortTableState.NumPages) ∧
    get_current_interval sampleShortTableState = some 10 :=
  ⟨by decide,
    (C11_interval_needs_full_table sampleShortTableState (by decide) (by decide)
      (by decide)).2 (by decide)⟩

/-- C12: mismatch discard.  For every state whose `Intervals` table is non-empty
and shorter than `NumPages`, the check of the loop of `main` changes nothing
but `Intervals`, which becomes empty, and `Interval`, which becomes 15 (so
`Exit` stays as it is); the wait duration of the iteration is 15, and
`get_current_interval` of the checked state is 15 for every page. -/
theorem C12_mismatch_discard (state : State) (hne : state.Intervals ≠ [])
    (hlt : (state.Intervals.length : Int) < state.NumPages) :
    main.check_intervals state = { state with Intervals := [], Interval := 15 } ∧
    (main.check_intervals state).Exit = state.Exit ∧
    main.wait_duration state = some 15 ∧
    ∀ page : Int,
      get_current_interval { main.check_intervals state with Page := page } = some 15 := by
  have hlen : state.Intervals.length ≠ 0 := by
    intro h
    exact hne (List.length_eq_zero.mp h)
  have hsz : state.Intervals.length < to_size_t state.NumPages := by
    unfold to_size_t
    rw [if_pos (by omega)]
    omega
  have hc : main.check_intervals state = { state with Intervals := [], Interval := 15 } := by
    unfold main.check_intervals
    rw [if_pos ⟨hlen, hsz⟩]
  refine ⟨hc, ?_, ?_, ?_⟩
  · rw [hc]
  · unfold main.wait_duration
    rw [hc]
    simp [get_current_interval]
  · intro page
    rw [hc]
    simp [get_current_interval]

/-- C12 on `Intervals = [5, 7]` with `NumPages = 3`: the wait lasts 15. -/
theorem C12_mismatch_discard_witness :
    (sampleShortTableState.Intervals ≠ [] ∧
      (sampleShortTableState.Intervals.length : Int) < sampleShortTableState.NumPages) ∧
    main.wait_duration sampleShortTableState = some 15 :=
  ⟨by decide, (C12_mismatch_discard sampleShortTableState (by decide) (by decide)).2.2.1⟩

/-- C13, as stated, fails: an iteration whose state has `Interval = 5`,
`Intervals = [5, 7]` and `NumPages = 3` waits 15, not 5, because the check of
the table replaces the interval. -/
theorem C13_short_table_overrides_scalar :
    sampleScalarShortTableState.Interval = 5 ∧
      sampleScalarShortTableState.Intervals = [5, 7] ∧
      sampleScalarShortTableState.NumPages = 3 ∧
      main.wait_duration sampleScalarShortTableState = some 15 := by
  decide

/-- C13, amended: for every state with `Interval ≠ 0` that reaches the check of
the interval table, the iteration takes the slideshow branch; when the table
is empty or at least `NumPages` long the check changes nothing and the wait
duration is that `Interval`; when the table is non-empty and shorter than
`NumPages` the wait duration is 15. -/
theorem C13_scalar_interval_wins (state : State) (hI : state.Interval ≠ 0) :
    (state.Intervals = [] ∨
        (0 ≤ state.NumPages ∧ state.NumPages ≤ state.Intervals.length) →
      main.check_intervals state = state ∧
      main.wait_duration state = some state.Interval) ∧
    (state.Intervals ≠ [] ∧ (state.Intervals.length : Int) < state.NumPages →
      main.wait_duration state = some 15) ∧
    ¬ ((main.check_intervals state).Interval = 0 ∧
      (main.check_intervals state).Intervals.length = 0) := by
  refine ⟨?_, ?_, ?_⟩
  · intro h
    have hc : main.check_intervals state = state := by
      unfold main.check_intervals
      rw [if_neg]
      rintro ⟨hlen, hsz⟩
      rcases h with h | ⟨hN, hle⟩
      · exact hlen (by simp [h])
      · unfold to_size_t at hsz
        rw [if_pos hN] at hsz
        omega
    refine ⟨hc, ?_⟩
    unfold main.wait_duration
    rw [hc]
    simp [get_current_interval, hI]
  · rintro ⟨hne, hlt⟩
    have hlen : state.Intervals.length ≠ 0 := by
      intro h
      exact hne (List.length_eq_zero.mp h)
    have hsz : state.Intervals.length < to_size_t state.NumPages := by
      unfold to_size_t
      rw [if_pos (by omega)]
      omega
    unfold main.wait_duration main.check_intervals
    rw [if_pos ⟨hlen, hsz⟩]
    simp [get_current_interval]
  · unfold main.check_intervals
    split_ifs
    · simp
    · simp [hI]

/-- C13, amended, on the sample state with `Interval = 5` and no table. -/
theorem C13_scalar_interval_wins_witness :
    sampleScalarState.Interval ≠ 0 ∧ sampleScalarState.Intervals = [] ∧
    main.wait_duration sampleScalarState = some 5 :=
  ⟨by decide, by decide,
    ((C13_scalar_interval_wins sampleScalarState (by decide)).1 (Or.inl (by decide))).2⟩

/-- C15: button decoding.  For every reading `result` of `get_buttons` that
lists the lines 16, 20 and 21 in any order, `buttonHit` returns `J` exactly
when only line 16 is ON, `P` exactly when only line 20 is ON, `K` exactly when
only line 21 is ON, and 0 for every other combination; it returns 0 without a
GPIO object, and for a reading that does not have three entries. -/
theorem C15_button_decoding (gpio : GPIO) (files : ValueFiles)
    (result : List (Int × GPIO_STATUS)) (s16 s20 s21 : GPIO_STATUS)
    (hget : gpio.get_buttons files = Outcome.returns result)
    (hperm : result.Perm [(16, s16), (20, s20), (21, s21)]) :
    (buttonHit (some gpio) files = Outcome.returns (key 'J') ↔
      s16 = GPIO_STATUS.ON ∧ s20 = GPIO_STATUS.OFF ∧ s21 = GPIO_STATUS.OFF) ∧
    (buttonHit (some gpio) files = Outcome.returns (key 'P') ↔
      s16 = GPIO_STATUS.OFF ∧ s20 = GPIO_STATUS.ON ∧ s21 = GPIO_STATUS.OFF) ∧
    (buttonHit (some gpio) files = Outcome.returns (key 'K') ↔
      s16 = GPIO_STATUS.OFF ∧ s20 = GPIO_STATUS.OFF ∧ s21 = GPIO_STATUS.ON) ∧
    (buttonHit (some gpio) files = Outcome.returns 0 ↔
      ¬ (s16 = GPIO_STATUS.ON ∧ s20 = GPIO_STATUS.OFF ∧ s21 = GPIO_STATUS.OFF) ∧
      ¬ (s16 = GPIO_STATUS.OFF ∧ s20 = GPIO_STATUS.ON ∧ s21 = GPIO_STATUS.OFF) ∧
      ¬ (s16 = GPIO_STATUS.OFF ∧ s20 = GPIO_STATUS.OFF ∧ s21 = GPIO_STATUS.ON)) ∧
    buttonHit none files = Outcome.returns 0 ∧
    (∀ (gpio2 : GPIO) (result2 : List (Int × GPIO_STATUS)),
      gpio2.get_buttons files = Outcome.returns result2 → result2.length ≠ 3 →
      buttonHit (some gpio2) files = Outcome.returns 0) := by
  have hb : buttonHit (some gpio) files = Outcome.returns
      (if s16 = GPIO_STATUS.ON ∧ s20 = GPIO_STATUS.OFF ∧ s21 = GPIO_STATUS.OFF then key 'J'
        else if s16 = GPIO_STATUS.OFF ∧ s20 = GPIO_STATUS.ON ∧ s21 = GPIO_STATUS.OFF then
          key 'P'
        else if s16 = GPIO_STATUS.OFF ∧ s20 = GPIO_STATUS.OFF ∧ s21 = GPIO_STATUS.ON then
          key 'K'
        else 0) := by
    have hl := hperm.length_eq
    match result, hl, hperm, hget with
    | [r1, r2, r3], _, hperm, hget =>
      simp only [buttonHit, hget]
      rw [buttonHit_decode_of_perm r1 r2 r3 s16 s20 s21 hperm]
  refine ⟨?_, ?_, ?_, ?_, rfl, ?_⟩
  · rw [hb]
    cases s16 <;> cases s20 <;> cases s21 <;> decide
  · rw [hb]
    cases s16 <;> cases s20 <;> cases s21 <;> decide
  · rw [hb]
    cases s16 <;> cases s20 <;> cases s21 <;> decide
  · rw [hb]
    cases s16 <;> cases s20 <;> cases s21 <;> decide
  · intro gpio2 result2 hget2 hlen
    simp only [buttonHit, hget2]
    match result2, hlen with
    | [], _ => rfl
    | [_], _ => rfl
    | [_, _], _ => rfl
    | [_, _, _], h => exact absurd rfl h
    | _ :: _ :: _ :: _ :: _, _ => rfl

/-- C15 on the lines of `setup_gpio` with only the button of line 16 pressed. -/
theorem C15_button_decoding_witness :
    buttonHit (some setup_gpio) samplePressed16 = Outcome.returns (key 'J') :=
  (C15_button_decoding setup_gpio samplePressed16
    [(16, GPIO_STATUS.ON), (20, GPIO_STATUS.OFF), (21, GPIO_STATUS.OFF)]
    GPIO_STATUS.ON GPIO_STATUS.OFF GPIO_STATUS.OFF (by decide) (List.Perm.refl _)).1.2
    (by decide)

/-- C16 at its failing input: with the lines of `setup_gpio` and a value file of
line 16 that cannot be opened, `GPIO::get_value` ends the process with
`EXIT_FAILURE`, and so do `GPIO::get_buttons` and `buttonHit`; no status is
reported for the line. -/
theorem C16_unopened_line_exits :
    sampleUnopened16 16 = none ∧
      GPIO.get_value sampleUnopened16 16 = Outcome.exits EXIT_FAILURE ∧
      setup_gpio.get_buttons sampleUnopened16 = Outcome.exits EXIT_FAILURE ∧
      buttonHit (some setup_gpio) sampleUnopened16 = Outcome.exits EXIT_FAILURE := by
  decide

set_option maxRecDepth 100000 in
/-- C17 at its failing input: `sscanf("abc", "%d", ...)` returns 0; the options
`--page`, `--zoom`, `--rotation` and `--cache_size` with the value `abc` end
the process with `EXIT_FAILURE` (they test `< 1`), whereas `--interval abc`
(which tests `< 0`) is accepted: `ParseCommandLine` returns the state with
`Interval` unchanged and the zoom set to fit. -/
theorem C17_interval_accepts_non_number :
    sscanf_d ['a', 'b', 'c'] = { ret := 0, value := none } ∧
      ParseCommandLine.option sampleDecls f32 (key 'p') ['a', 'b', 'c'] sampleState =
        Outcome.exits EXIT_FAILURE ∧
      ParseCommandLine.option sampleDecls f32 (key 'z') ['a', 'b', 'c'] sampleState =
        Outcome.exits EXIT_FAILURE ∧
      ParseCommandLine.option sampleDecls f32 (key 'r') ['a', 'b', 'c'] sampleState =
        Outcome.exits EXIT_FAILURE ∧
      ParseCommandLine.option sampleDecls f32 ParseCommandLine.RENDER_CACHE_SIZE
        ['a', 'b', 'c'] sampleState = Outcome.exits EXIT_FAILURE ∧
      ParseCommandLine.option sampleDecls f32 (key 'i') ['a', 'b', 'c'] sampleState =
        Outcome.returns { sampleState with Zoom := sampleDecls.ZOOM_TO_FIT } ∧
      ParseCommandLine sampleDecls f32 [(key 'i', ['a', 'b', 'c'])] [['f']] sampleState =
        Outcome.returns
          { sampleState with Zoom := sampleDecls.ZOOM_TO_FIT, FilePath := ['f'] } := by
  with_unfolding_all decide

/-- C18: interval sequence round trip.  For every non-empty list of natural
numbers that fit in `int`, `split_intervals` applied to their decimal
representations joined by `","`, with the separator `","`, returns exactly
that list (enough fuel included: the loop ends). -/
theorem C18_split_intervals_round_trip (l : List Nat) (hne : l ≠ [])
    (hfit : ∀ n ∈ l, (n : Int) ≤ INT_MAX) :
    split_intervals (List.intercalate [','] (l.map (Nat.toDigits 10))) [','] =
      some (Outcome.returns (l.map (fun n : Nat => (n : Int)))) := by
  have hlen : l.length ≤
      (List.intercalate [','] (l.map (Nat.toDigits 10))).length + 1 :=
    join_length_ge l
  have h := split_loop_join l hne hfit [] [] _ hlen
  simp only [List.nil_append, List.length_nil] at h
  simp only [split_intervals, List.length_singleton, one_ne_zero, if_false]
  exact h

/-- C18 on `"5,7,9"`: the result is `[5, 7, 9]`. -/
theorem C18_split_intervals_round_trip_witness :
    split_intervals ['5', ',', '7', ',', '9'] [','] = some (Outcome.returns [5, 7, 9]) :=
  C18_split_intervals_round_trip [5, 7, 9] (by decide) (by decide)

/-- C22 at its failing input: in the manual regime, after a `SIGINT` has set
`e_flag` to 1, the key `q` ends the loop and `main` returns `EXIT_FAILURE`.
The slideshow branch clears `e_flag` when `wait_timer` returns `q`, and
`main` returns `EXIT_SUCCESS` when `e_flag` is 0. -/
theorem C22_quit_after_signal_fails :
    sampleSignalledLoop.e_flag = 1 ∧
      (main.check_intervals (main.render id sampleSignalledLoop.state)).Interval = 0 ∧
      (main.check_intervals (main.render id sampleSignalledLoop.state)).Intervals = [] ∧
      sampleSignalledLoop.keys = [key 'q'] ∧
      (main.loop sampleDecls id BuildRegistry [sampleIteration] sampleSignalledLoop).map
        (fun l => (l.state.Exit, main.exit_status l.e_flag)) = some (true, EXIT_FAILURE) ∧
      (main.slideshow_key (key 'q') 1 sampleScalarState).2.1 = 0 ∧
      main.exit_status 0 = EXIT_SUCCESS := by
  decide

/-- C23: the default branch of `get_current_interval` is not taken by the loop
of `main`.  For every state that has passed the check of the interval table
and enters the slideshow branch, `get_current_interval` returns `Interval`
when it is not 0; otherwise the table is at least `NumPages` long and the
function returns the element `Intervals[Page]`, which is in bounds when
`0 ≤ Page < NumPages`. -/
theorem C23_default_branch_not_taken (s0 : State)
    (hslide : ¬ ((main.check_intervals s0).Interval = 0 ∧
      (main.check_intervals s0).Intervals.length = 0)) :
    ((main.check_intervals s0).Interval ≠ 0 →
      get_current_interval (main.check_intervals s0) = some (main.check_intervals s0).Interval) ∧
    ((main.check_intervals s0).Interval = 0 →
      to_size_t (main.check_intervals s0).NumPages ≤
        (main.check_intervals s0).Intervals.length ∧
      get_current_interval (main.check_intervals s0) =
        (main.check_intervals s0).Intervals[to_size_t (main.check_intervals s0).Page]?) ∧
    ((main.check_intervals s0).Interval = 0 → 0 ≤ (main.check_intervals s0).Page →
      (main.check_intervals s0).Page < (main.check_intervals s0).NumPages →
      ∃ h : (main.check_intervals s0).Page.toNat < (main.check_intervals s0).Intervals.length,
        get_current_interval (main.check_intervals s0) =
          some ((main.check_intervals s0).Intervals.get
            ⟨(main.check_intervals s0).Page.toNat, h⟩)) := by
  have hpass : (main.check_intervals s0).Interval = 0 →
      to_size_t (main.check_intervals s0).NumPages ≤
        (main.check_intervals s0).Intervals.length := by
    intro hI
    by_contra hcon
    have hlt : (main.check_intervals s0).Intervals.length <
        to_size_t (main.check_intervals s0).NumPages := by omega
    have hne : (main.check_intervals s0).Intervals.length ≠ 0 := fun h => hslide ⟨hI, h⟩
    unfold main.check_intervals at hI hlt hne
    split_ifs at hI hlt hne with hc
    · simp at hI
    · exact hc ⟨hne, hlt⟩
  refine ⟨?_, ?_, ?_⟩
  · intro hI
    simp [get_current_interval, hI]
  · intro hI
    refine ⟨hpass hI, ?_⟩
    simp only [get_current_interval, hI, ne_eq, not_true_eq_false, if_false, ge_iff_le,
      hpass hI, if_true]
  · intro hI h0 h1
    have hp := hpass hI
    have hN : to_size_t (main.check_intervals s0).NumPages =
        (main.check_intervals s0).NumPages.toNat := by
      unfold to_size_t
      rw [if_pos (by omega)]
    have hP : to_size_t (main.check_intervals s0).Page =
        (main.check_intervals s0).Page.toNat := by
      unfold to_size_t
      rw [if_pos h0]
    have hb : (main.check_intervals s0).Page.toNat <
        (main.check_intervals s0).Intervals.length := by
      rw [hN] at hp
      omega
    refine ⟨hb, ?_⟩
    simp only [get_current_interval, hI, ne_eq, not_true_eq_false, if_false, ge_iff_le, hp,
      if_true, hP]
    exact List.getElem?_eq_getElem hb

/-- C23 on `Interval = 0`, `Intervals = [5, 7, 9]`, `NumPages = 3`, `Page = 1`. -/
theorem C23_default_branch_not_taken_witness :
    get_current_interval (main.check_intervals sampleIntervalState) = some 7 := by
  obtain ⟨h, e⟩ := (C23_default_branch_not_taken sampleIntervalState (by decide)).2.2
    (by decide) (by decide) (by decide)
  rw [e]
  rfl

/-- C24: for all integer endpoints, `line_to` makes exactly
`max(|x1 - x0|, |y1 - y0|) + 1` calls of `WritePixel`, the first at `(x0, y0)`
and the last at `(x1, y1)`, and every position written lies in the bounding
rectangle of the two endpoints; so with both endpoints inside a framebuffer of
`Width` by `Height` pixels every write is inside it. -/
theorem C24_line_to (x0 y0 x1 y1 : Int) :
    ((line_to x0 y0 x1 y1).length : Int) = max |x1 - x0| |y1 - y0| + 1 ∧
    (line_to x0 y0 x1 y1).head? = some (x0, y0) ∧
    (line_to x0 y0 x1 y1).getLast? = some (x1, y1) ∧
    (∀ p ∈ line_to x0 y0 x1 y1,
      min x0 x1 ≤ p.1 ∧ p.1 ≤ max x0 x1 ∧ min y0 y1 ≤ p.2 ∧ p.2 ≤ max y0 y1) ∧
    (∀ Width Height : Int,
      0 ≤ x0 ∧ x0 < Width ∧ 0 ≤ y0 ∧ y0 < Height →
      0 ≤ x1 ∧ x1 < Width ∧ 0 ≤ y1 ∧ y1 < Height →
      ∀ p ∈ line_to x0 y0 x1 y1, 0 ≤ p.1 ∧ p.1 < Width ∧ 0 ≤ p.2 ∧ p.2 < Height) := by
  obtain ⟨h1, h2, h3, h4⟩ := line_to_spec x0 y0 x1 y1
  refine ⟨h1, h2, h3, h4, ?_⟩
  intro Width Height ha hb p hp
  obtain ⟨hx1, hx2, hy1, hy2⟩ := h4 p hp
  have e1 : 0 ≤ min x0 x1 := le_min ha.1 hb.1
  have e2 : max x0 x1 < Width := max_lt ha.2.1 hb.2.1
  have e3 : 0 ≤ min y0 y1 := le_min ha.2.2.1 hb.2.2.1
  have e4 : max y0 y1 < Height := max_lt ha.2.2.2 hb.2.2.2
  exact ⟨le_trans e1 hx1, lt_of_le_of_lt hx2 e2, le_trans e3 hy1, lt_of_le_of_lt hy2 e4⟩

/-- C25 at its failing input: from `ActualZoom = 1`, within the zoom bounds,
`ZoomOutCommand` with the repeat 2 requests `1 * 2 / 1.2` and leaves a `Zoom`
above the previous `ActualZoom`, in binary32 and in exact arithmetic. -/
theorem C25_zoom_out_twice_zooms_in :
    (sampleDecls.MIN_ZOOM ≤ sampleState.ActualZoom ∧
        sampleState.ActualZoom ≤ sampleDecls.MAX_ZOOM) ∧
      sampleState.ActualZoom = 1 ∧
      (ZoomOutCommand.Execute sampleDecls f32 2 sampleState).Zoom = 13981013 / 8388608 ∧
      (ZoomOutCommand.Execute sampleDecls id 2 sampleState).Zoom = 5 / 3 ∧
      sampleState.ActualZoom < (ZoomOutCommand.Execute sampleDecls f32 2 sampleState).Zoom := by
  decide!

end Jfbview
